import Mathlib

/-!
Shallow embedding of the reactive-casr contracts of this repository:
ReactiveManager.sol, DestinationHandler.sol and OriginPosition.sol.

Modelling conventions, matching the Solidity 0.8 source:

* uint256 values are Nat; the checked arithmetic of Solidity 0.8 is modelled
  by explicit overflow tests against 2 ^ 256 that make the call fail (Panic).
  int256 values are Int; the bit-reinterpreting casts of the source
  (int256(uint256 x), uint256(int256 x)) are modelled by toInt256 and
  Int.toNat, and the checked unary minus panics exactly at the int256
  minimum, as in the source.
* revert semantics: every external entrypoint returns Except Err State; an
  error result means the whole call reverts, so no state change survives.
  runTx and runCall keep the pre-state on error, which is the EVM rollback
  of an outer call that is not wrapped in try/catch.
* keccak256 is modelled as an injective function: the dedup key
  keccak256(abi.encodePacked(sig, positionId, eventData)) is represented by
  the packed byte string itself, the three event-signature constants are
  distinct abstract tags, and the keccak comparison of action-type strings
  in DestinationHandler becomes string equality. The keccak-derived tx
  references returned by the destination handler are emitted data that no
  claim inspects, so they are not returned by the embedding.
* ECDSA recovery is modelled by EcdsaSig: a signature carries the signer it
  recovers to and the message pair it was produced over; recovery over any
  other message yields the zero address. The signed message
  toEthSignedMessageHash(keccak256(abi.encodePacked(positionId, block.chainid)))
  is represented by the pair (positionId, chainId), both hashing steps being
  injective.
* abi.decode of the static triple (uint256, uint256, int256) is done on raw
  bytes (three 32-byte big-endian words, at least 96 bytes of data); the
  dynamic triple (string, uint256, address) decoded by the destination
  handler is modelled by the abstract ABIData type whose well-formed
  constructor carries the decoded fields and whose malformed constructor
  makes the decode revert.
* event emissions, the OpenZeppelin reentrancy guard (never contended on any
  path of this code) and functions not reachable from the claims are not
  part of observable storage and are omitted.
* DestinationHandler.processCallback invokes executeHedgingTrade and
  executeRebalancing on the same contract; the source writes these as plain
  internal-style calls, so the embedding runs their bodies (including their
  onlyAuthorized and whenNotPaused guards) with the unchanged outer caller,
  and a revert inside them reverts the whole processCallback call.
-/

set_option maxRecDepth 100000

/-! ## Generic machinery -/

def UINT256_MOD : Nat := 2 ^ 256

/-- Reinterpret a uint256 word as an int256 (two-complement). -/
def toInt256 (w : Nat) : Int :=
  if w < 2 ^ 255 then (w : Int) else (w : Int) - 2 ^ 256

/-- Big-endian byte list to Nat. -/
def bytesToNat (l : List Nat) : Nat := l.foldl (fun acc b => acc * 256 + b) 0

/-- The 32-byte word of a byte string starting at offset i, as a Nat. -/
def bytes32At (l : List Nat) (i : Nat) : Nat := bytesToNat ((l.drop i).take 32)

/-- A Nat below 2 ^ 256 as its 32-byte big-endian encoding. -/
def natToBytes32 (n : Nat) : List Nat :=
  (List.range 32).map (fun i => n / 256 ^ (31 - i) % 256)

/-- Outcome of an external call under EVM rollback: the post-state on
success, the unchanged pre-state on revert. -/
def runTx {σ ε : Type} (f : σ → Except ε σ) (s : σ) : σ :=
  match f s with
  | Except.ok s2 => s2
  | Except.error _ => s

/-- runTx for entrypoints that also return a value. -/
def runCall {σ ε β : Type} (f : σ → Except ε (σ × β)) (s : σ) : σ :=
  match f s with
  | Except.ok p => p.1
  | Except.error _ => s

/-- Whether a call completed without reverting. -/
def callOk {ε α : Type} : Except ε α → Bool
  | Except.ok _ => true
  | Except.error _ => false

deriving instance DecidableEq for Except

/-- Whether a call reverted with the given error. -/
def errIs {ε α : Type} [DecidableEq ε] : Except ε α → ε → Bool
  | Except.error e2, e => if e2 = e then true else false
  | Except.ok _, _ => false

/-! ## ReactiveManager.sol -/

/-- Revert reasons of ReactiveManager (require strings, Pausable revert and
arithmetic Panic). -/
inductive MErr
  | pausedErr
  | onlyReactive
  | invalidLogData
  | eventAlreadyProcessed
  | positionNotActive
  | notPositionOwner
  | invalidThreshold
  | invalidActionType
  | invalidGasBudget
  | insufficientGasPayment
  | notAuthorized
  | decodeFailed
  | arithPanic
  deriving DecidableEq

/-- struct Position of ReactiveManager. -/
structure MPosition where
  user : Nat
  originChainId : Nat
  originContract : Nat
  originToken : Nat
  positionIdentifier : String
  threshold : Nat
  actionType : String
  gasBudget : Nat
  isActive : Bool
  createdAt : Nat
  lastTriggered : Nat
  deriving DecidableEq

/-- The zero struct a Solidity mapping yields for an absent key. -/
def MPosition.empty : MPosition :=
  { user := 0, originChainId := 0, originContract := 0, originToken := 0,
    positionIdentifier := "", threshold := 0, actionType := "", gasBudget := 0,
    isActive := false, createdAt := 0, lastTriggered := 0 }

/-- Storage of ReactiveManager (events and the reentrancy flag omitted). -/
structure ManagerState where
  owner : Nat
  paused : Bool
  positions : Nat → MPosition
  processedEvents : List (List Nat)
  originPositionContract : Nat
  destinationHandlerContract : Nat
  destinationChainId : Nat
  totalPositions : Nat
  totalReactiveActions : Nat
  totalGasUsed : Nat

/-- address(0x0000000000000000000000000000000000000001). -/
def REACTIVE_SYSTEM : Nat := 1

/-- keccak256 of the three event signature strings, modelled as distinct
abstract 32-byte tags. -/
def POSITION_CREATED_SIGNATURE : Nat := 101

def PRICE_UPDATE_SIGNATURE : Nat := 102

def LIQUIDITY_UPDATE_SIGNATURE : Nat := 103

/-- Write one entry of the positions mapping. -/
def setPos (m : Nat → MPosition) (pid : Nat) (p : MPosition) : Nat → MPosition :=
  fun k => if k = pid then p else m k

/-- updatePosition (lines 153-170): whenNotPaused, owner-only, validates the
new threshold and action type, writes threshold, actionType and gasBudget.
The function is not payable and performs no payment check. -/
def updatePosition (sender pid newThreshold : Nat) (newActionType : String)
    (newGasBudget : Nat) (s : ManagerState) : Except MErr ManagerState :=
  if s.paused = true then Except.error MErr.pausedErr
  else
    let p := s.positions pid
    if p.isActive = false then Except.error MErr.positionNotActive
    else if p.user ≠ sender then Except.error MErr.notPositionOwner
    else if newThreshold = 0 then Except.error MErr.invalidThreshold
    else if newActionType.length = 0 then Except.error MErr.invalidActionType
    else
      let p2 := { p with threshold := newThreshold, actionType := newActionType,
                         gasBudget := newGasBudget }
      Except.ok { s with positions := setPos s.positions pid p2 }

/-- deactivatePosition (lines 251-258): callable by the position owner or the
contract owner; no whenNotPaused modifier. -/
def deactivatePosition (sender pid : Nat) (s : ManagerState) :
    Except MErr ManagerState :=
  let p := s.positions pid
  if p.isActive = false then Except.error MErr.positionNotActive
  else if ¬(p.user = sender ∨ sender = s.owner) then Except.error MErr.notAuthorized
  else Except.ok { s with positions := setPos s.positions pid ({ p with isActive := false }) }

/-- updateGasBudget (lines 265-274): payable, owner-only, requires a positive
new budget and msg.value at least the new budget; no whenNotPaused modifier. -/
def updateGasBudget (sender payment pid newGasBudget : Nat) (s : ManagerState) :
    Except MErr ManagerState :=
  let p := s.positions pid
  if p.isActive = false then Except.error MErr.positionNotActive
  else if p.user ≠ sender then Except.error MErr.notPositionOwner
  else if newGasBudget = 0 then Except.error MErr.invalidGasBudget
  else if payment < newGasBudget then Except.error MErr.insufficientGasPayment
  else
    let p2 := { p with gasBudget := newGasBudget }
    Except.ok { s with positions := setPos s.positions pid p2 }

/-- keccak256(abi.encodePacked(eventSignature, positionId, eventData)), the
dedup key of react: keccak is modelled as injective, so the key is the
packed byte string itself. -/
def packKey (sig pid : Nat) (data : List Nat) : List Nat :=
  natToBytes32 sig ++ natToBytes32 pid ++ data

/-- parseLog (lines 336-343): requires at least the 64-byte envelope, then
splits into [32B signature][32B positionId][eventData]. -/
def parseLog (log : List Nat) : Except MErr (Nat × Nat × List Nat) :=
  if log.length < 64 then Except.error MErr.invalidLogData
  else Except.ok (bytes32At log 0, bytes32At log 32, log.drop 64)

/-- abi.decode(eventData, (uint256, uint256, int256)): reverts on data
shorter than the three static words. -/
def decodeUUI (data : List Nat) : Except MErr (Nat × Nat × Int) :=
  if data.length < 96 then Except.error MErr.decodeFailed
  else Except.ok (bytes32At data 0, bytes32At data 32, toInt256 (bytes32At data 64))

/-- triggerReactiveAction (lines 397-431): stamps lastTriggered, increments
totalReactiveActions and adds the gas budget to totalGasUsed with checked
arithmetic; the callback request and events it emits are not storage. The
triggerReason and triggerData arguments of the source are unused by its body
and omitted here. -/
def triggerReactiveAction (now pid : Nat) (s : ManagerState) :
    Except MErr ManagerState :=
  let p := s.positions pid
  if UINT256_MOD ≤ s.totalReactiveActions + 1 then Except.error MErr.arithPanic
  else if UINT256_MOD ≤ s.totalGasUsed + p.gasBudget then Except.error MErr.arithPanic
  else Except.ok { s with
    positions := setPos s.positions pid ({ p with lastTriggered := now }),
    totalReactiveActions := s.totalReactiveActions + 1,
    totalGasUsed := s.totalGasUsed + p.gasBudget }

/-- handlePriceUpdate (lines 350-361): decode (oldPrice, newPrice,
priceChange), take the absolute value of the signed change (checked unary
minus panics at the int256 minimum, then a bit cast to uint256), and trigger
when it reaches the threshold (inclusive). -/
def handlePriceUpdate (now pid : Nat) (eventData : List Nat) (s : ManagerState) :
    Except MErr ManagerState :=
  match decodeUUI eventData with
  | Except.error e => Except.error e
  | Except.ok (_oldPrice, _newPrice, priceChange) =>
    if priceChange = -(2 ^ 255 : Int) then Except.error MErr.arithPanic
    else
      let absPriceChange : Nat := (if priceChange < 0 then -priceChange else priceChange).toNat
      if (s.positions pid).threshold ≤ absPriceChange then
        triggerReactiveAction now pid s
      else Except.ok s

/-- handleLiquidityUpdate (lines 368-379): same shape as handlePriceUpdate
on (oldLiquidity, newLiquidity, liquidityChange). -/
def handleLiquidityUpdate (now pid : Nat) (eventData : List Nat) (s : ManagerState) :
    Except MErr ManagerState :=
  match decodeUUI eventData with
  | Except.error e => Except.error e
  | Except.ok (_oldLiq, _newLiq, liquidityChange) =>
    if liquidityChange = -(2 ^ 255 : Int) then Except.error MErr.arithPanic
    else
      let absLiquidityChange : Nat := (if liquidityChange < 0 then -liquidityChange else liquidityChange).toNat
      if (s.positions pid).threshold ≤ absLiquidityChange then
        triggerReactiveAction now pid s
      else Except.ok s

/-- react (lines 176-199): whenNotPaused, relay-identity check, parse the
envelope, dedup on keccak256(abi.encodePacked(sig, positionId, eventData))
(modelled by the packed bytes), mark processed, require the position active,
then dispatch on the signature; unknown signatures are a silent no-op.
handlePositionCreated only emits an event, so its branch returns the state
with just the dedup mark. -/
def react (now sender : Nat) (log : List Nat) (s : ManagerState) :
    Except MErr ManagerState :=
  if s.paused = true then Except.error MErr.pausedErr
  else if sender ≠ REACTIVE_SYSTEM then Except.error MErr.onlyReactive
  else
    match parseLog log with
    | Except.error e => Except.error e
    | Except.ok (eventSignature, positionId, eventData) =>
      let eventHash := packKey eventSignature positionId eventData
      if eventHash ∈ s.processedEvents then Except.error MErr.eventAlreadyProcessed
      else
        let s1 : ManagerState := { s with processedEvents := eventHash :: s.processedEvents }
        if (s1.positions positionId).isActive = false then Except.error MErr.positionNotActive
        else if eventSignature = PRICE_UPDATE_SIGNATURE then
          handlePriceUpdate now positionId eventData s1
        else if eventSignature = LIQUIDITY_UPDATE_SIGNATURE then
          handleLiquidityUpdate now positionId eventData s1
        else if eventSignature = POSITION_CREATED_SIGNATURE then
          Except.ok s1
        else Except.ok s1

/-! ## DestinationHandler.sol -/

/-- Revert reasons of DestinationHandler. -/
inductive DErr
  | notAuthorizedCaller
  | pausedErr
  | callbackAlreadyProcessed
  | invalidCallbackSignature
  | invalidTokenAddresses
  | tokensMustDiffer
  | invalidAmount
  | invalidMinAmount
  | insufficientBalance
  | slippageTooHigh
  | invalidActionType
  | unsupportedActionType
  | decodeFailed
  | arithPanic
  deriving DecidableEq

/-- An ECDSA signature: the signer it recovers to and the (positionId,
chainId) message pair it was produced over. -/
structure EcdsaSig where
  signer : Nat
  signedPid : Nat
  signedChainId : Nat
  deriving DecidableEq

/-- abi-encoded (string actionType, uint256 amount, address token) payload:
either a well-formed encoding carrying the decoded fields, or malformed
bytes on which abi.decode reverts. -/
inductive ABIData
  | triple (actionType : String) (amount : Nat) (token : Nat)
  | malformed (raw : List Nat)
  deriving DecidableEq

/-- Storage of DestinationHandler, plus the environment it reads:
block.chainid and the ERC20 balances this contract holds. -/
structure HandlerState where
  owner : Nat
  paused : Bool
  chainId : Nat
  processedCallbacks : List Nat
  authorizedCallers : Nat → Bool
  tokenBalance : Nat → Nat

/-- ECDSA.recover over the modelled message (positionId, chainId): the
signer for the signed message, the zero address for any other message. -/
def recoverSigner (pid chainId : Nat) (sig : EcdsaSig) : Nat :=
  if sig.signedPid = pid ∧ sig.signedChainId = chainId then sig.signer else 0

/-- validateCallback (lines 131-144): recover the signer of
(positionId, block.chainid) and check the allow-list. The signed message
does not include callbackId or actionData. -/
def validateCallback (s : HandlerState) (pid : Nat) (sig : EcdsaSig) : Bool :=
  s.authorizedCallers (recoverSigner pid s.chainId sig)

/-- abi.decode(actionData, (string, uint256, address)). -/
def decodeStringUintAddress : ABIData → Except DErr (String × Nat × Nat)
  | ABIData.triple a m t =>
      if m < UINT256_MOD ∧ t < 2 ^ 160 then Except.ok (a, m, t)
      else Except.error DErr.decodeFailed
  | ABIData.malformed _ => Except.error DErr.decodeFailed

/-- executeHedgingTrade (lines 67-93): allow-list and pause guards, token
and amount validation, balance check, stubbed venue output 95% of input
(checked multiplication), slippage floor. The stubbed swap moves tokens from
this contract to itself, so holdings are unchanged; the keccak tx reference
is emitted data only. Returns amountOut. -/
def executeHedgingTrade (sender pid tokenIn tokenOut amountIn minAmountOut : Nat)
    (s : HandlerState) : Except DErr (HandlerState × Nat) :=
  if s.authorizedCallers sender = false then Except.error DErr.notAuthorizedCaller
  else if s.paused = true then Except.error DErr.pausedErr
  else if tokenIn = 0 ∨ tokenOut = 0 then Except.error DErr.invalidTokenAddresses
  else if tokenIn = tokenOut then Except.error DErr.tokensMustDiffer
  else if amountIn = 0 then Except.error DErr.invalidAmount
  else if minAmountOut = 0 then Except.error DErr.invalidMinAmount
  else if s.tokenBalance tokenIn < amountIn then Except.error DErr.insufficientBalance
  else if UINT256_MOD ≤ amountIn * 95 then Except.error DErr.arithPanic
  else if amountIn * 95 / 100 < minAmountOut then Except.error DErr.slippageTooHigh
  else Except.ok (s, amountIn * 95 / 100)

/-- executeRebalancing (lines 103-123): allow-list and pause guards, amount
and action-type validation, then dispatch on the action type; the two
strategy stubs always report success, and any other action type is a hard
failure. -/
def executeRebalancing (sender pid : Nat) (actionType : String) (amount : Nat)
    (s : HandlerState) : Except DErr (HandlerState × Bool) :=
  if s.authorizedCallers sender = false then Except.error DErr.notAuthorizedCaller
  else if s.paused = true then Except.error DErr.pausedErr
  else if amount = 0 then Except.error DErr.invalidAmount
  else if actionType.length = 0 then Except.error DErr.invalidActionType
  else if actionType = "partial_unwind" then Except.ok (s, true)
  else if actionType = "rebalance" then Except.ok (s, true)
  else Except.error DErr.unsupportedActionType

/-- processCallback (lines 154-184): allow-list guard, dedup on callbackId,
signature validation bound to (positionId, chainId) only, mark the
callbackId processed, decode the action triple, then run the hedge branch
(tokenOut fixed to address(0), minAmountOut = amount * 95 / 100 computed
with checked arithmetic before the call) or the rebalancing branch. Returns
the success flag the source returns. -/
def processCallback (sender cb pid : Nat) (actionData : ABIData) (sig : EcdsaSig)
    (s : HandlerState) : Except DErr (HandlerState × Bool) :=
  if s.authorizedCallers sender = false then Except.error DErr.notAuthorizedCaller
  else if cb ∈ s.processedCallbacks then Except.error DErr.callbackAlreadyProcessed
  else if validateCallback s pid sig = false then Except.error DErr.invalidCallbackSignature
  else
    let s1 : HandlerState := { s with processedCallbacks := cb :: s.processedCallbacks }
    match decodeStringUintAddress actionData with
    | Except.error e => Except.error e
    | Except.ok (actionType, amount, token) =>
      if actionType = "hedge" then
        if UINT256_MOD ≤ amount * 95 then Except.error DErr.arithPanic
        else
          match executeHedgingTrade sender pid token 0 amount (amount * 95 / 100) s1 with
          | Except.error e => Except.error e
          | Except.ok (s2, amountOut) => Except.ok (s2, if 0 < amountOut then true else false)
      else
        match executeRebalancing sender pid actionType amount s1 with
        | Except.error e => Except.error e
        | Except.ok (s2, ok2) => Except.ok (s2, ok2)

/-! ## OriginPosition.sol -/

/-- Revert reasons of OriginPosition. -/
inductive OErr
  | notOwner
  | positionNotActive
  | invalidPrice
  | priceChangeTooLarge
  | arithPanic
  deriving DecidableEq

/-- struct Position of OriginPosition. -/
structure OPosition where
  user : Nat
  token0 : Nat
  token1 : Nat
  amount0 : Nat
  amount1 : Nat
  currentPrice : Nat
  liquidity : Nat
  createdAt : Nat
  isActive : Bool
  deriving DecidableEq

/-- The zero struct for an absent mapping key. -/
def OPosition.empty : OPosition :=
  { user := 0, token0 := 0, token1 := 0, amount0 := 0, amount1 := 0,
    currentPrice := 0, liquidity := 0, createdAt := 0, isActive := false }

/-- Storage of OriginPosition (only what updatePrice touches). -/
structure OriginState where
  owner : Nat
  paused : Bool
  positions : Nat → OPosition

def PRICE_PRECISION : Nat := 10 ^ 18

/-- 50% of the fixed-point scale: the cap on a single price update. -/
def MAX_PRICE_CHANGE : Nat := 50 * 10 ^ 16

/-- Write one entry of the positions mapping. -/
def setOPos (m : Nat → OPosition) (pid : Nat) (p : OPosition) : Nat → OPosition :=
  fun k => if k = pid then p else m k

/-- The private abs helper (line 256) followed by the uint256 cast of its
result: checked unary minus panics exactly at the int256 minimum. -/
def absInt256 (x : Int) : Except OErr Int :=
  if x = -(2 ^ 255 : Int) then Except.error OErr.arithPanic
  else Except.ok (if 0 ≤ x then x else -x)

/-- updatePrice (lines 112-136): onlyOwner, position active, positive price;
computes the signed relative change (newPrice - oldPrice) * 1e18 / oldPrice
with checked uint256 multiplication (Panic on overflow, Panic on division by
zero when the stored price is zero), a bit cast to int256, checked negation
on the downward branch, then rejects when the absolute change exceeds
MAX_PRICE_CHANGE, else stores the new price. -/
def updatePrice (sender pid newPrice : Nat) (s : OriginState) :
    Except OErr OriginState :=
  if sender ≠ s.owner then Except.error OErr.notOwner
  else if (s.positions pid).isActive = false then Except.error OErr.positionNotActive
  else if newPrice = 0 then Except.error OErr.invalidPrice
  else
    let p := s.positions pid
    let oldPrice := p.currentPrice
    let step : Except OErr Int :=
      if oldPrice < newPrice then
        if UINT256_MOD ≤ (newPrice - oldPrice) * PRICE_PRECISION then Except.error OErr.arithPanic
        else if oldPrice = 0 then Except.error OErr.arithPanic
        else Except.ok (toInt256 ((newPrice - oldPrice) * PRICE_PRECISION / oldPrice))
      else
        if UINT256_MOD ≤ (oldPrice - newPrice) * PRICE_PRECISION then Except.error OErr.arithPanic
        else if toInt256 ((oldPrice - newPrice) * PRICE_PRECISION / oldPrice) = -(2 ^ 255 : Int) then
          Except.error OErr.arithPanic
        else Except.ok (-(toInt256 ((oldPrice - newPrice) * PRICE_PRECISION / oldPrice)))
    match step with
    | Except.error e => Except.error e
    | Except.ok priceChange =>
      match absInt256 priceChange with
      | Except.error e => Except.error e
      | Except.ok a =>
        if MAX_PRICE_CHANGE < a.toNat then Except.error OErr.priceChangeTooLarge
        else
          let p2 := { p with currentPrice := newPrice }
          Except.ok { s with positions := setOPos s.positions pid p2 }

/-! ## Concrete states used by witnesses and counterexamples -/

/-- An active monitored position owned by address 7. -/
def exPosA : MPosition :=
  { user := 7, originChainId := 1, originContract := 3, originToken := 4,
    positionIdentifier := "p", threshold := 3, actionType := "rebalance", gasBudget := 4,
    isActive := true, createdAt := 0, lastTriggered := 0 }

/-- A manager state holding exPosA at key 5, nothing processed yet. -/
def exMgrA : ManagerState :=
  { owner := 9, paused := false,
    positions := fun k => if k = 5 then exPosA else MPosition.empty,
    processedEvents := [],
    originPositionContract := 3, destinationHandlerContract := 6, destinationChainId := 2,
    totalPositions := 1, totalReactiveActions := 0, totalGasUsed := 0 }

/-- A price-update payload for position 5 with signed delta 3 (equal to the
threshold of exPosA). -/
def exLogA : List Nat :=
  natToBytes32 PRICE_UPDATE_SIGNATURE ++ natToBytes32 5 ++
    (natToBytes32 10 ++ natToBytes32 13 ++ natToBytes32 3)

/-- A price-update payload addressed to the absent (hence inactive)
position 77. -/
def exLogInactive : List Nat :=
  natToBytes32 PRICE_UPDATE_SIGNATURE ++ natToBytes32 77 ++ natToBytes32 0

/-- A destination handler with address 7 allow-listed, chain id 1. -/
def exDhA : HandlerState :=
  { owner := 7, paused := false, chainId := 1, processedCallbacks := [],
    authorizedCallers := fun a => a == 7, tokenBalance := fun _ => 0 }

/-- A signature by the allow-listed address 7 over (positionId 5, chain 1). -/
def exSigA : EcdsaSig := { signer := 7, signedPid := 5, signedChainId := 1 }

/-- A well-formed rebalance payload. -/
def exAdReb : ABIData := ABIData.triple "rebalance" 6 3

/-- A well-formed hedge payload. -/
def exAdHedge : ABIData := ABIData.triple "hedge" 6 3

/-- An active origin position with an astronomically large stored price. -/
def exOPosBig : OPosition :=
  { user := 7, token0 := 3, token1 := 4, amount0 := 1, amount1 := 4 * 10 ^ 41,
    currentPrice := 4 * 10 ^ 59, liquidity := 1, createdAt := 0, isActive := true }

/-- Origin registry owned by 7 holding exOPosBig at key 5. -/
def exOrgBig : OriginState :=
  { owner := 7, paused := false,
    positions := fun k => if k = 5 then exOPosBig else OPosition.empty }

/-- An active origin position with stored price 4. -/
def exOPosSmall : OPosition :=
  { user := 7, token0 := 3, token1 := 4, amount0 := 1, amount1 := 4,
    currentPrice := 4, liquidity := 8, createdAt := 0, isActive := true }

/-- Origin registry owned by 7 holding exOPosSmall at key 5. -/
def exOrgSmall : OriginState :=
  { owner := 7, paused := false,
    positions := fun k => if k = 5 then exOPosSmall else OPosition.empty }

/-- A second, different well-formed rebalance payload. -/
def exAdReb2 : ABIData := ABIData.triple "partial_unwind" 8 3

/-- The manager state exMgrA with the circuit breaker engaged. -/
def exMgrPaused : ManagerState := { exMgrA with paused := true }

/-! ## Helper lemmas -/

/-- A successful triggerReactiveAction changes neither the pause flag nor the
dedup ledger. -/
theorem trigger_ok_frame (now pid : Nat) (s s2 : ManagerState)
    (h : triggerReactiveAction now pid s = Except.ok s2) :
    s2.paused = s.paused ∧ s2.processedEvents = s.processedEvents := by
  unfold triggerReactiveAction at h
  by_cases h1 : UINT256_MOD ≤ s.totalReactiveActions + 1
  · simp [h1] at h
  · by_cases h2 : UINT256_MOD ≤ s.totalGasUsed + (s.positions pid).gasBudget
    · simp [h1, h2] at h
    · simp [h1, h2] at h
      cases h
      exact ⟨rfl, rfl⟩

/-- A successful handlePriceUpdate changes neither the pause flag nor the
dedup ledger. -/
theorem handlePrice_ok_frame (now pid : Nat) (d : List Nat) (s s2 : ManagerState)
    (h : handlePriceUpdate now pid d s = Except.ok s2) :
    s2.paused = s.paused ∧ s2.processedEvents = s.processedEvents := by
  unfold handlePriceUpdate at h
  cases hd : decodeUUI d with
  | error e => rw [hd] at h; cases h
  | ok t =>
    obtain ⟨o, n, c⟩ := t
    rw [hd] at h
    by_cases hmin : c = -(2 ^ 255 : Int)
    · simp [hmin] at h
    · simp only [hmin, if_false] at h
      by_cases ht : (s.positions pid).threshold ≤ (if c < 0 then -c else c).toNat
      · simp only [ht, if_true] at h
        exact trigger_ok_frame now pid s s2 h
      · simp only [ht, if_false] at h
        cases h
        exact ⟨rfl, rfl⟩

/-- A successful handleLiquidityUpdate changes neither the pause flag nor the
dedup ledger. -/
theorem handleLiquidity_ok_frame (now pid : Nat) (d : List Nat) (s s2 : ManagerState)
    (h : handleLiquidityUpdate now pid d s = Except.ok s2) :
    s2.paused = s.paused ∧ s2.processedEvents = s.processedEvents := by
  unfold handleLiquidityUpdate at h
  cases hd : decodeUUI d with
  | error e => rw [hd] at h; cases h
  | ok t =>
    obtain ⟨o, n, c⟩ := t
    rw [hd] at h
    by_cases hmin : c = -(2 ^ 255 : Int)
    · simp [hmin] at h
    · simp only [hmin, if_false] at h
      by_cases ht : (s.positions pid).threshold ≤ (if c < 0 then -c else c).toNat
      · simp only [ht, if_true] at h
        exact trigger_ok_frame now pid s s2 h
      · simp only [ht, if_false] at h
        cases h
        exact ⟨rfl, rfl⟩

/-- After a successful react call the contract is unpaused, the payload had a
full envelope, and the dedup key of the payload is in the ledger. -/
theorem react_ok_invariants (now : Nat) (log : List Nat) (s s2 : ManagerState)
    (h : react now REACTIVE_SYSTEM log s = Except.ok s2) :
    s2.paused = false ∧ ¬ log.length < 64 ∧
    packKey (bytes32At log 0) (bytes32At log 32) (log.drop 64) ∈ s2.processedEvents := by
  by_cases hp : s.paused = true
  · simp [react, hp] at h
  · by_cases hlen : log.length < 64
    · simp [react, parseLog, hp, hlen] at h
    · by_cases hmem :
        packKey (bytes32At log 0) (bytes32At log 32) (log.drop 64) ∈ s.processedEvents
      · simp [react, parseLog, hp, hlen, hmem] at h
      · simp only [react, parseLog, hp, hlen, hmem, if_false, if_true, ite_false, ite_true,
          Bool.not_eq_true, ne_eq, not_false_eq_true, not_true_eq_false] at h
        by_cases hact : (s.positions (bytes32At log 32)).isActive = false
        · simp only [hact, ite_true] at h
          cases h
        · simp only [hact, ite_false] at h
          by_cases hs1 : bytes32At log 0 = PRICE_UPDATE_SIGNATURE
          · rw [if_pos hs1] at h
            have hf := handlePrice_ok_frame _ _ _ _ _ h
            refine ⟨?_, hlen, ?_⟩
            · rw [hf.1]
            · rw [hf.2]
              exact List.mem_cons_self _ _
          · rw [if_neg hs1] at h
            by_cases hs2 : bytes32At log 0 = LIQUIDITY_UPDATE_SIGNATURE
            · rw [if_pos hs2] at h
              have hf := handleLiquidity_ok_frame _ _ _ _ _ h
              refine ⟨?_, hlen, ?_⟩
              · rw [hf.1]
              · rw [hf.2]
                exact List.mem_cons_self _ _
            · rw [if_neg hs2] at h
              by_cases hs3 : bytes32At log 0 = POSITION_CREATED_SIGNATURE
              · rw [if_pos hs3] at h
                cases h
                exact ⟨rfl, hlen, List.mem_cons_self _ _⟩
              · rw [if_neg hs3] at h
                cases h
                exact ⟨rfl, hlen, List.mem_cons_self _ _⟩

/-- The block timestamp only enters the success value of
triggerReactiveAction, never its failure behaviour. -/
theorem trigger_err_indep (now now2 pid : Nat) (s : ManagerState) (e : MErr)
    (h : triggerReactiveAction now pid s = Except.error e) :
    triggerReactiveAction now2 pid s = Except.error e := by
  unfold triggerReactiveAction at h ⊢
  by_cases h1 : UINT256_MOD ≤ s.totalReactiveActions + 1
  · simp only [h1, if_true, ite_true] at h ⊢
    exact h
  · simp only [h1, if_false, ite_false] at h ⊢
    by_cases h2 : UINT256_MOD ≤ s.totalGasUsed + (s.positions pid).gasBudget
    · simp only [h2, if_true, ite_true] at h ⊢
      exact h
    · simp only [h2, if_false, ite_false] at h
      cases h

/-- The block timestamp never enters the failure behaviour of
handlePriceUpdate. -/
theorem handlePrice_err_indep (now now2 pid : Nat) (d : List Nat) (s : ManagerState)
    (e : MErr) (h : handlePriceUpdate now pid d s = Except.error e) :
    handlePriceUpdate now2 pid d s = Except.error e := by
  unfold handlePriceUpdate at h ⊢
  cases hd : decodeUUI d with
  | error e2 =>
    rw [hd] at h
    exact h
  | ok t =>
    obtain ⟨o, n2, c⟩ := t
    rw [hd] at h
    by_cases hmin : c = -(2 ^ 255 : Int)
    · simp only [hmin, if_true, ite_true] at h ⊢
      exact h
    · simp only [hmin, if_false, ite_false] at h ⊢
      by_cases ht : (s.positions pid).threshold ≤ (if c < 0 then -c else c).toNat
      · simp only [ht, if_true, ite_true] at h ⊢
        exact trigger_err_indep now now2 pid s e h
      · simp only [ht, if_false, ite_false] at h
        cases h

/-- The block timestamp never enters the failure behaviour of
handleLiquidityUpdate. -/
theorem handleLiquidity_err_indep (now now2 pid : Nat) (d : List Nat) (s : ManagerState)
    (e : MErr) (h : handleLiquidityUpdate now pid d s = Except.error e) :
    handleLiquidityUpdate now2 pid d s = Except.error e := by
  unfold handleLiquidityUpdate at h ⊢
  cases hd : decodeUUI d with
  | error e2 =>
    rw [hd] at h
    exact h
  | ok t =>
    obtain ⟨o, n2, c⟩ := t
    rw [hd] at h
    by_cases hmin : c = -(2 ^ 255 : Int)
    · simp only [hmin, if_true, ite_true] at h ⊢
      exact h
    · simp only [hmin, if_false, ite_false] at h ⊢
      by_cases ht : (s.positions pid).threshold ≤ (if c < 0 then -c else c).toNat
      · simp only [ht, if_true, ite_true] at h ⊢
        exact trigger_err_indep now now2 pid s e h
      · simp only [ht, if_false, ite_false] at h
        cases h

/-- A reverting react call reverts identically at any block timestamp. -/
theorem react_err_indep (now now2 sender : Nat) (log : List Nat) (s : ManagerState)
    (e : MErr) (h : react now sender log s = Except.error e) :
    react now2 sender log s = Except.error e := by
  by_cases hp : s.paused = true
  · simp [react, hp] at h ⊢
    exact h
  · by_cases hsn : sender = REACTIVE_SYSTEM
    · by_cases hlen : log.length < 64
      · simp [react, parseLog, hp, hsn, hlen] at h ⊢
        exact h
      · by_cases hmem :
          packKey (bytes32At log 0) (bytes32At log 32) (log.drop 64) ∈ s.processedEvents
        · simp [react, parseLog, hp, hsn, hlen, hmem] at h ⊢
          exact h
        · by_cases hact : (s.positions (bytes32At log 32)).isActive = false
          · simp [react, parseLog, hp, hsn, hlen, hmem, hact] at h ⊢
            exact h
          · simp [react, parseLog, hp, hsn, hlen, hmem, hact] at h ⊢
            by_cases hs1 : bytes32At log 0 = PRICE_UPDATE_SIGNATURE
            · rw [if_pos hs1] at h ⊢
              exact handlePrice_err_indep now now2 _ _ _ e h
            · rw [if_neg hs1] at h ⊢
              by_cases hs2 : bytes32At log 0 = LIQUIDITY_UPDATE_SIGNATURE
              · rw [if_pos hs2] at h ⊢
                exact handleLiquidity_err_indep now now2 _ _ _ e h
              · rw [if_neg hs2] at h
                simp at h
    · simp [react, hp, hsn] at h ⊢
      exact h

/-- C1 counterexample: a payload whose first react call itself reverts (here:
the monitored position is inactive). The second identical call again reverts
with PositionNotActive, not with EventAlreadyProcessed, because the revert of
the first call rolled back the dedup mark. -/
theorem react_replay_counterexample :
    errIs (react 20 REACTIVE_SYSTEM exLogInactive exMgrA) MErr.positionNotActive = true ∧
    errIs (react 21 REACTIVE_SYSTEM exLogInactive
        (runTx (react 20 REACTIVE_SYSTEM exLogInactive) exMgrA))
      MErr.positionNotActive = true ∧
    errIs (react 21 REACTIVE_SYSTEM exLogInactive
        (runTx (react 20 REACTIVE_SYSTEM exLogInactive) exMgrA))
      MErr.eventAlreadyProcessed = false :=
  ⟨by decide, by decide, by decide⟩

/-- C1 (amended): calling react twice on the same payload from the relay
identity yields state identical to calling it once; moreover, whenever the
first call succeeds, the second call reverts with EventAlreadyProcessed (and
hence changes nothing). When the first call itself reverts, the second call
repeats its error instead. -/
theorem react_replay_idempotent (now now2 : Nat) (log : List Nat) (s : ManagerState) :
    runTx (react now2 REACTIVE_SYSTEM log) (runTx (react now REACTIVE_SYSTEM log) s)
      = runTx (react now REACTIVE_SYSTEM log) s ∧
    (callOk (react now REACTIVE_SYSTEM log s) = true →
      react now2 REACTIVE_SYSTEM log (runTx (react now REACTIVE_SYSTEM log) s)
        = Except.error MErr.eventAlreadyProcessed) := by
  cases hr : react now REACTIVE_SYSTEM log s with
  | error e =>
    have h2 : react now2 REACTIVE_SYSTEM log s = Except.error e :=
      react_err_indep now now2 REACTIVE_SYSTEM log s e hr
    constructor
    · simp [runTx, hr, h2]
    · intro hok
      simp [callOk] at hok
  | ok s2 =>
    have hrun : runTx (react now REACTIVE_SYSTEM log) s = s2 := by simp [runTx, hr]
    obtain ⟨hpz, hlen, hmem⟩ := react_ok_invariants now log s s2 hr
    have hsecond : react now2 REACTIVE_SYSTEM log s2 = Except.error MErr.eventAlreadyProcessed := by
      simp [react, parseLog, hpz, hlen, hmem]
    rw [hrun]
    exact ⟨by simp [runTx, hsecond], fun _ => hsecond⟩

/-- C1 witness: a successful first call on a concrete state, whose replay
reverts with EventAlreadyProcessed. -/
theorem react_replay_idempotent_witness :
    callOk (react 20 REACTIVE_SYSTEM exLogA exMgrA) = true ∧
    react 21 REACTIVE_SYSTEM exLogA (runTx (react 20 REACTIVE_SYSTEM exLogA) exMgrA)
      = Except.error MErr.eventAlreadyProcessed :=
  ⟨by decide, (react_replay_idempotent 20 21 exLogA exMgrA).2 (by decide)⟩

/-- A successful triggerReactiveAction bumps totalReactiveActions by one and
totalGasUsed by the gas budget of the position. -/
theorem trigger_ok_counters (now pid : Nat) (s s2 : ManagerState)
    (h : triggerReactiveAction now pid s = Except.ok s2) :
    s2.totalReactiveActions = s.totalReactiveActions + 1 ∧
    s2.totalGasUsed = s.totalGasUsed + (s.positions pid).gasBudget := by
  unfold triggerReactiveAction at h
  by_cases h1 : UINT256_MOD ≤ s.totalReactiveActions + 1
  · simp [h1] at h
  · by_cases h2 : UINT256_MOD ≤ s.totalGasUsed + (s.positions pid).gasBudget
    · simp [h1, h2] at h
    · simp [h1, h2] at h
      cases h
      exact ⟨rfl, rfl⟩

/-- The absolute value the handlers compute agrees with Int.natAbs whenever
the checked negation did not panic. -/
theorem handler_abs_eq (c : Int) : (if c < 0 then -c else c).toNat = c.natAbs := by
  by_cases hc : c < 0
  · simp only [hc, if_true, ite_true]
    omega
  · simp only [hc, if_false, ite_false]
    omega

/-- Counter effect of a successful handlePriceUpdate: the trigger fires, and
bumps the counters, exactly when the absolute decoded delta reaches the
threshold. -/
theorem handlePrice_counters (now pid : Nat) (d : List Nat) (s s2 : ManagerState)
    (o n2 : Nat) (c : Int)
    (hdec : decodeUUI d = Except.ok (o, n2, c))
    (h : handlePriceUpdate now pid d s = Except.ok s2) :
    ((s.positions pid).threshold ≤ c.natAbs →
      s2.totalReactiveActions = s.totalReactiveActions + 1 ∧
      s2.totalGasUsed = s.totalGasUsed + (s.positions pid).gasBudget) ∧
    (c.natAbs < (s.positions pid).threshold →
      s2.totalReactiveActions = s.totalReactiveActions ∧
      s2.totalGasUsed = s.totalGasUsed) := by
  unfold handlePriceUpdate at h
  rw [hdec] at h
  by_cases hmin : c = -(2 ^ 255 : Int)
  · simp [hmin] at h
  · simp only [hmin, if_false, ite_false] at h
    rw [handler_abs_eq c] at h
    by_cases ht : (s.positions pid).threshold ≤ c.natAbs
    · simp only [ht, if_true, ite_true] at h
      have hc := trigger_ok_counters now pid s s2 h
      exact ⟨fun _ => hc, fun hlt => absurd ht (by omega)⟩
    · simp only [ht, if_false, ite_false] at h
      cases h
      exact ⟨fun hge => absurd hge ht, fun _ => ⟨rfl, rfl⟩⟩

/-- Counter effect of a successful handleLiquidityUpdate, same shape as
handlePrice_counters. -/
theorem handleLiquidity_counters (now pid : Nat) (d : List Nat) (s s2 : ManagerState)
    (o n2 : Nat) (c : Int)
    (hdec : decodeUUI d = Except.ok (o, n2, c))
    (h : handleLiquidityUpdate now pid d s = Except.ok s2) :
    ((s.positions pid).threshold ≤ c.natAbs →
      s2.totalReactiveActions = s.totalReactiveActions + 1 ∧
      s2.totalGasUsed = s.totalGasUsed + (s.positions pid).gasBudget) ∧
    (c.natAbs < (s.positions pid).threshold →
      s2.totalReactiveActions = s.totalReactiveActions ∧
      s2.totalGasUsed = s.totalGasUsed) := by
  unfold handleLiquidityUpdate at h
  rw [hdec] at h
  by_cases hmin : c = -(2 ^ 255 : Int)
  · simp [hmin] at h
  · simp only [hmin, if_false, ite_false] at h
    rw [handler_abs_eq c] at h
    by_cases ht : (s.positions pid).threshold ≤ c.natAbs
    · simp only [ht, if_true, ite_true] at h
      have hc := trigger_ok_counters now pid s s2 h
      exact ⟨fun _ => hc, fun hlt => absurd ht (by omega)⟩
    · simp only [ht, if_false, ite_false] at h
      cases h
      exact ⟨fun hge => absurd hge ht, fun _ => ⟨rfl, rfl⟩⟩

/-- C4: for a price-update or liquidity-update payload successfully processed
by react on an active monitored position, with decoded signed delta d, the
reactive action fires iff the absolute delta reaches the threshold
(inclusive, so a delta exactly equal to the threshold triggers); a trigger
bumps totalReactiveActions by one and totalGasUsed by the gas budget of the
position, and a below-threshold delta leaves both counters unchanged. -/
theorem react_threshold_inclusive (now : Nat) (log : List Nat) (s : ManagerState)
    (o n2 : Nat) (d : Int)
    (hsig : bytes32At log 0 = PRICE_UPDATE_SIGNATURE ∨
            bytes32At log 0 = LIQUIDITY_UPDATE_SIGNATURE)
    (hdec : decodeUUI (log.drop 64) = Except.ok (o, n2, d))
    (hok : callOk (react now REACTIVE_SYSTEM log s) = true) :
    ((s.positions (bytes32At log 32)).threshold ≤ d.natAbs →
      (runTx (react now REACTIVE_SYSTEM log) s).totalReactiveActions
          = s.totalReactiveActions + 1 ∧
      (runTx (react now REACTIVE_SYSTEM log) s).totalGasUsed
          = s.totalGasUsed + (s.positions (bytes32At log 32)).gasBudget) ∧
    (d.natAbs < (s.positions (bytes32At log 32)).threshold →
      (runTx (react now REACTIVE_SYSTEM log) s).totalReactiveActions
          = s.totalReactiveActions ∧
      (runTx (react now REACTIVE_SYSTEM log) s).totalGasUsed = s.totalGasUsed) := by
  cases hr : react now REACTIVE_SYSTEM log s with
  | error e =>
    rw [hr] at hok
    simp [callOk] at hok
  | ok s2 =>
    have hrun : runTx (react now REACTIVE_SYSTEM log) s = s2 := by simp [runTx, hr]
    rw [hrun]
    by_cases hp : s.paused = true
    · simp [react, hp] at hr
    · by_cases hlen : log.length < 64
      · simp [react, parseLog, hp, hlen] at hr
      · by_cases hmem :
          packKey (bytes32At log 0) (bytes32At log 32) (log.drop 64) ∈ s.processedEvents
        · simp [react, parseLog, hp, hlen, hmem] at hr
        · by_cases hact : (s.positions (bytes32At log 32)).isActive = false
          · simp [react, parseLog, hp, hlen, hmem, hact] at hr
          · simp [react, parseLog, hp, hlen, hmem, hact] at hr
            by_cases hs1 : bytes32At log 0 = PRICE_UPDATE_SIGNATURE
            · rw [if_pos hs1] at hr
              have hc := handlePrice_counters now (bytes32At log 32) (log.drop 64) _ s2 o n2 d hdec hr
              exact hc
            · rw [if_neg hs1] at hr
              by_cases hs2 : bytes32At log 0 = LIQUIDITY_UPDATE_SIGNATURE
              · rw [if_pos hs2] at hr
                have hc := handleLiquidity_counters now (bytes32At log 32) (log.drop 64) _ s2 o n2 d hdec hr
                exact hc
              · rcases hsig with h1 | h2
                · exact absurd h1 hs1
                · exact absurd h2 hs2

/-- C4 witness: in exMgrA the position 5 has threshold 3; the payload exLogA
carries decoded delta exactly 3, the boundary case, and triggers: the action
counter goes from 0 to 1 and totalGasUsed grows by the gas budget 4. -/
theorem react_threshold_inclusive_witness :
    (bytes32At exLogA 0 = PRICE_UPDATE_SIGNATURE ∨
      bytes32At exLogA 0 = LIQUIDITY_UPDATE_SIGNATURE) ∧
    decodeUUI (exLogA.drop 64) = Except.ok (10, 13, 3) ∧
    callOk (react 20 REACTIVE_SYSTEM exLogA exMgrA) = true ∧
    (exMgrA.positions (bytes32At exLogA 32)).threshold ≤ (3 : Int).natAbs ∧
    (runTx (react 20 REACTIVE_SYSTEM exLogA) exMgrA).totalReactiveActions
        = exMgrA.totalReactiveActions + 1 ∧
    (runTx (react 20 REACTIVE_SYSTEM exLogA) exMgrA).totalGasUsed
        = exMgrA.totalGasUsed + (exMgrA.positions (bytes32At exLogA 32)).gasBudget :=
  ⟨Or.inl (by decide), by decide, by decide, by decide,
    ((react_threshold_inclusive 20 exLogA exMgrA 10 13 3
        (Or.inl (by decide)) (by decide) (by decide)).1 (by decide)).1,
    ((react_threshold_inclusive 20 exLogA exMgrA 10 13 3
        (Or.inl (by decide)) (by decide) (by decide)).1 (by decide)).2⟩

/-- C2 counterexample: updatePosition, called by the owner with no payment at
all (the entrypoint is not payable, so its payment is always zero), succeeds
and overwrites the stored gasBudget of position 5 from 4 to 100. -/
theorem gasBudget_payment_counterexample :
    callOk (updatePosition 7 5 3 "rebalance" 100 exMgrA) = true ∧
    ((runTx (updatePosition 7 5 3 "rebalance" 100) exMgrA).positions 5).gasBudget = 100 ∧
    (exMgrA.positions 5).gasBudget = 4 :=
  ⟨by decide, by decide, by decide⟩

/-- C2 (amended): updateGasBudget enforces payment at least the new budget —
with a smaller payment it reverts with InsufficientGasPayment and the old
budget is retained — but updatePosition carries no payment check at all: on
an unpaused manager, called by the owner of an active position with a valid
threshold and action type, it always succeeds and overwrites gasBudget. -/
theorem gasBudget_payment_spec (sender payment pid b thr gb : Nat)
    (newActionType : String) (s : ManagerState)
    (hact : (s.positions pid).isActive = true)
    (hown : (s.positions pid).user = sender) :
    (payment < b →
      updateGasBudget sender payment pid b s = Except.error MErr.insufficientGasPayment ∧
      ((runTx (updateGasBudget sender payment pid b) s).positions pid).gasBudget
        = (s.positions pid).gasBudget) ∧
    (s.paused = false → thr ≠ 0 → newActionType.length ≠ 0 →
      callOk (updatePosition sender pid thr newActionType gb s) = true ∧
      ((runTx (updatePosition sender pid thr newActionType gb) s).positions pid).gasBudget
        = gb) := by
  constructor
  · intro hpay
    have hb : ¬ b = 0 := by omega
    have herr : updateGasBudget sender payment pid b s
        = Except.error MErr.insufficientGasPayment := by
      simp [updateGasBudget, hact, hown, hb, hpay]
    exact ⟨herr, by simp [runTx, herr]⟩
  · intro hp hthr hat
    have hokk : updatePosition sender pid thr newActionType gb s
        = Except.ok { s with
            positions := setPos s.positions pid ({ s.positions pid with threshold := thr, actionType := newActionType, gasBudget := gb }) } := by
      simp [updatePosition, hp, hact, hown, hthr, hat]
    refine ⟨by simp [callOk, hokk], ?_⟩
    simp [runTx, hokk, setPos]

/-- C2 witness: with payment 1 below the new budget 10, updateGasBudget on
position 5 of exMgrA reverts and the budget stays 4; updatePosition with new
budget 100 succeeds with no payment. -/
theorem gasBudget_payment_spec_witness :
    ((exMgrA.positions 5).isActive = true ∧ (exMgrA.positions 5).user = 7 ∧
      (1 : Nat) < 10 ∧ exMgrA.paused = false) ∧
    (updateGasBudget 7 1 5 10 exMgrA = Except.error MErr.insufficientGasPayment ∧
      ((runTx (updateGasBudget 7 1 5 10) exMgrA).positions 5).gasBudget
        = (exMgrA.positions 5).gasBudget) ∧
    (callOk (updatePosition 7 5 3 "rebalance" 100 exMgrA) = true ∧
      ((runTx (updatePosition 7 5 3 "rebalance" 100) exMgrA).positions 5).gasBudget = 100) :=
  ⟨⟨by decide, by decide, by decide, by decide⟩,
    (gasBudget_payment_spec 7 1 5 10 3 100 "rebalance" exMgrA (by decide) (by decide)).1
      (by decide),
    (gasBudget_payment_spec 7 1 5 10 3 100 "rebalance" exMgrA (by decide) (by decide)).2
      (by decide) (by decide) (by decide)⟩

/-- C9: on an active position called by its owner, updateGasBudget with
payment below the new budget reverts with InsufficientGasPayment and retains
the old budget; with a positive new budget covered by the payment it
succeeds and stores the new budget. -/
theorem updateGasBudget_budget_conservation (sender payment pid b : Nat)
    (s : ManagerState)
    (hact : (s.positions pid).isActive = true)
    (hown : (s.positions pid).user = sender) :
    (payment < b →
      updateGasBudget sender payment pid b s = Except.error MErr.insufficientGasPayment ∧
      ((runTx (updateGasBudget sender payment pid b) s).positions pid).gasBudget
        = (s.positions pid).gasBudget) ∧
    (0 < b → b ≤ payment →
      callOk (updateGasBudget sender payment pid b s) = true ∧
      ((runTx (updateGasBudget sender payment pid b) s).positions pid).gasBudget = b) := by
  constructor
  · intro hpay
    have hb : ¬ b = 0 := by omega
    have herr : updateGasBudget sender payment pid b s
        = Except.error MErr.insufficientGasPayment := by
      simp [updateGasBudget, hact, hown, hb, hpay]
    exact ⟨herr, by simp [runTx, herr]⟩
  · intro hb hpay
    have hnlt : ¬ payment < b := by omega
    have hb2 : ¬ b = 0 := by omega
    have hokk : updateGasBudget sender payment pid b s
        = Except.ok { s with
            positions := setPos s.positions pid ({ s.positions pid with gasBudget := b }) } := by
      simp [updateGasBudget, hact, hown, hb2, hnlt]
    refine ⟨by simp [callOk, hokk], ?_⟩
    simp [runTx, hokk, setPos]

/-- C9 witness: payment 1 below budget 10 reverts and budget 4 is retained;
payment 10 covering budget 10 succeeds and stores 10. -/
theorem updateGasBudget_budget_conservation_witness :
    ((exMgrA.positions 5).isActive = true ∧ (exMgrA.positions 5).user = 7) ∧
    (updateGasBudget 7 1 5 10 exMgrA = Except.error MErr.insufficientGasPayment ∧
      ((runTx (updateGasBudget 7 1 5 10) exMgrA).positions 5).gasBudget
        = (exMgrA.positions 5).gasBudget) ∧
    (callOk (updateGasBudget 7 10 5 10 exMgrA) = true ∧
      ((runTx (updateGasBudget 7 10 5 10) exMgrA).positions 5).gasBudget = 10) :=
  ⟨⟨by decide, by decide⟩,
    (updateGasBudget_budget_conservation 7 1 5 10 exMgrA (by decide) (by decide)).1 (by decide),
    (updateGasBudget_budget_conservation 7 10 5 10 exMgrA (by decide) (by decide)).2
      (by decide) (by decide)⟩

/-- A reverted call leaves the state unchanged (rollback). -/
theorem runTx_eq_of_not_ok {σ ε : Type} (f : σ → Except ε σ) (s : σ)
    (h : callOk (f s) = false) : runTx f s = s := by
  unfold runTx
  cases hf : f s with
  | ok s2 =>
    rw [hf] at h
    simp [callOk] at h
  | error e => rfl

/-- A reverted value-returning call leaves the state unchanged (rollback). -/
theorem runCall_eq_of_not_ok {σ ε β : Type} (f : σ → Except ε (σ × β)) (s : σ)
    (h : callOk (f s) = false) : runCall f s = s := by
  unfold runCall
  cases hf : f s with
  | ok p =>
    rw [hf] at h
    simp [callOk] at h
  | error e => rfl

/-- executeHedgingTrade reverts while the handler is paused. -/
theorem executeHedging_paused (sender pid tin tout ain mout : Nat) (hs : HandlerState)
    (hp : hs.paused = true) :
    callOk (executeHedgingTrade sender pid tin tout ain mout hs) = false := by
  by_cases hau : hs.authorizedCallers sender = false
  · simp [executeHedgingTrade, hau, callOk]
  · simp [executeHedgingTrade, hau, hp, callOk]

/-- executeRebalancing reverts while the handler is paused. -/
theorem executeRebalancing_paused (sender pid amount : Nat) (actType : String)
    (hs : HandlerState) (hp : hs.paused = true) :
    callOk (executeRebalancing sender pid actType amount hs) = false := by
  by_cases hau : hs.authorizedCallers sender = false
  · simp [executeRebalancing, hau, callOk]
  · simp [executeRebalancing, hau, hp, callOk]

/-- processCallback reverts while the handler is paused: every execution path
either fails an earlier check or reaches an inner action guarded by
whenNotPaused, whose revert rolls back the whole call. -/
theorem processCallback_paused (sender cb pid : Nat) (ad : ABIData) (sig : EcdsaSig)
    (hs : HandlerState) (hp : hs.paused = true) :
    callOk (processCallback sender cb pid ad sig hs) = false := by
  by_cases hau : hs.authorizedCallers sender = false
  · simp [processCallback, hau, callOk]
  · by_cases hcb : cb ∈ hs.processedCallbacks
    · simp [processCallback, hau, hcb, callOk]
    · by_cases hv : validateCallback hs pid sig = false
      · simp [processCallback, hau, hcb, hv, callOk]
      · cases hd : decodeStringUintAddress ad with
        | error e => simp [processCallback, hau, hcb, hv, hd, callOk]
        | ok t =>
          obtain ⟨actType, amount, token⟩ := t
          by_cases hhedge : actType = "hedge"
          · by_cases hov : UINT256_MOD ≤ amount * 95
            · simp [processCallback, hau, hcb, hv, hd, hhedge, hov, callOk]
            · have hinner := executeHedging_paused sender pid token 0 amount
                (amount * 95 / 100)
                ({ hs with processedCallbacks := cb :: hs.processedCallbacks }) hp
              simp only [processCallback, hau, hcb, hv, hd, hhedge, hov] at *
              cases hex : executeHedgingTrade sender pid token 0 amount (amount * 95 / 100)
                  ({ hs with processedCallbacks := cb :: hs.processedCallbacks }) with
              | error e => simp [hau, hcb, hv, hd, hhedge, hov, hex, callOk]
              | ok p =>
                rw [hex] at hinner
                simp [callOk] at hinner
          · have hinner := executeRebalancing_paused sender pid amount actType
              ({ hs with processedCallbacks := cb :: hs.processedCallbacks }) hp
            cases hex : executeRebalancing sender pid actType amount
                ({ hs with processedCallbacks := cb :: hs.processedCallbacks }) with
            | error e => simp [processCallback, hau, hcb, hv, hd, hhedge, hex, callOk]
            | ok p =>
              rw [hex] at hinner
              simp [callOk] at hinner


/-- C3 counterexample: with the manager paused, deactivatePosition and
updateGasBudget both succeed and mutate storage — neither carries the
whenNotPaused guard, so the circuit breaker does not block them. -/
theorem pause_counterexample :
    exMgrPaused.paused = true ∧
    callOk (deactivatePosition 7 5 exMgrPaused) = true ∧
    ((runTx (deactivatePosition 7 5) exMgrPaused).positions 5).isActive = false ∧
    (exMgrPaused.positions 5).isActive = true ∧
    callOk (updateGasBudget 7 10 5 10 exMgrPaused) = true ∧
    ((runTx (updateGasBudget 7 10 5 10) exMgrPaused).positions 5).gasBudget = 10 ∧
    (exMgrPaused.positions 5).gasBudget = 4 :=
  ⟨by decide, by decide, by decide, by decide, by decide, by decide, by decide⟩

/-- C3 (amended): while the manager is paused, react and updatePosition are
rejected with the Pausable error and nothing changes, and while the
destination handler is paused, processCallback, executeHedgingTrade and
executeRebalancing all revert with no state change; but deactivatePosition
and updateGasBudget carry no pause guard — whether they succeed is
independent of the circuit breaker. -/
theorem pause_spec (sender pid thr gb payment b now cb pid2 amount : Nat)
    (newActionType actType : String) (log : List Nat) (s : ManagerState)
    (hs : HandlerState) (ad : ABIData) (sig : EcdsaSig) (tin tout ain mout : Nat) :
    (s.paused = true →
      react now sender log s = Except.error MErr.pausedErr ∧
      updatePosition sender pid thr newActionType gb s = Except.error MErr.pausedErr) ∧
    (hs.paused = true →
      callOk (processCallback sender cb pid2 ad sig hs) = false ∧
      runCall (processCallback sender cb pid2 ad sig) hs = hs ∧
      callOk (executeHedgingTrade sender pid2 tin tout ain mout hs) = false ∧
      runCall (executeHedgingTrade sender pid2 tin tout ain mout) hs = hs ∧
      callOk (executeRebalancing sender pid2 actType amount hs) = false ∧
      runCall (executeRebalancing sender pid2 actType amount) hs = hs) ∧
    (callOk (deactivatePosition sender pid { s with paused := true })
        = callOk (deactivatePosition sender pid { s with paused := false }) ∧
      callOk (updateGasBudget sender payment pid b { s with paused := true })
        = callOk (updateGasBudget sender payment pid b { s with paused := false })) := by
  refine ⟨?_, ?_, ?_, ?_⟩
  · intro hp
    exact ⟨by simp [react, hp], by simp [updatePosition, hp]⟩
  · intro hp
    have h1 := processCallback_paused sender cb pid2 ad sig hs hp
    have h2 := executeHedging_paused sender pid2 tin tout ain mout hs hp
    have h3 := executeRebalancing_paused sender pid2 amount actType hs hp
    exact ⟨h1, runCall_eq_of_not_ok _ _ h1, h2, runCall_eq_of_not_ok _ _ h2,
      h3, runCall_eq_of_not_ok _ _ h3⟩
  · by_cases hact2 : (s.positions pid).isActive = false
    · simp [deactivatePosition, callOk, hact2]
    · by_cases hauth : (s.positions pid).user = sender ∨ sender = s.owner
      · simp [deactivatePosition, callOk, hact2, hauth]
      · simp [deactivatePosition, callOk, hact2, hauth]
  · by_cases hact2 : (s.positions pid).isActive = false
    · simp [updateGasBudget, callOk, hact2]
    · by_cases hown : (s.positions pid).user ≠ sender
      · simp [updateGasBudget, callOk, hact2, hown]
      · by_cases hb : b = 0
        · simp [updateGasBudget, callOk, hact2, hown, hb]
        · by_cases hpay : payment < b
          · simp [updateGasBudget, callOk, hact2, hown, hb, hpay]
          · simp [updateGasBudget, callOk, hact2, hown, hb, hpay]

/-- C3 witness: exMgrPaused is paused, so react and updatePosition are
rejected there; exDhA with the pause flag set rejects processCallback. -/
theorem pause_spec_witness :
    exMgrPaused.paused = true ∧
    react 20 REACTIVE_SYSTEM exLogA exMgrPaused = Except.error MErr.pausedErr ∧
    updatePosition 7 5 3 "rebalance" 4 exMgrPaused = Except.error MErr.pausedErr ∧
    ({ exDhA with paused := true } : HandlerState).paused = true ∧
    callOk (processCallback 7 11 5 exAdReb exSigA ({ exDhA with paused := true })) = false :=
  ⟨by decide,
    ((pause_spec 7 5 3 4 0 0 20 11 5 6 "rebalance" "rebalance" exLogA exMgrPaused
        ({ exDhA with paused := true }) exAdReb exSigA 3 4 6 5).1 (by decide)).1,
    ((pause_spec 7 5 3 4 0 0 20 11 5 6 "rebalance" "rebalance" exLogA exMgrPaused
        ({ exDhA with paused := true }) exAdReb exSigA 3 4 6 5).1 (by decide)).2,
    by decide,
    ((pause_spec 7 5 3 4 0 0 20 11 5 6 "rebalance" "rebalance" exLogA exMgrPaused
        ({ exDhA with paused := true }) exAdReb exSigA 3 4 6 5).2.1 (by decide)).1⟩

/-- C8 counterexample: the manager admin (address 9), who is not the owner
(address 7) of position 5, successfully deactivates it — deactivation is not
owner-only. -/
theorem authorization_counterexample :
    exMgrA.owner = 9 ∧ (exMgrA.positions 5).user = 7 ∧ (9 : Nat) ≠ 7 ∧
    callOk (deactivatePosition 9 5 exMgrA) = true ∧
    ((runTx (deactivatePosition 9 5) exMgrA).positions 5).isActive = false ∧
    (exMgrA.positions 5).isActive = true :=
  ⟨by decide, by decide, by decide, by decide, by decide, by decide⟩

/-- C8 (amended): updatePosition and updateGasBudget are owner-only;
deactivatePosition accepts the position owner or the contract admin, and any
other caller is rejected; react accepts only the fixed relay identity; the
destination execution entrypoints accept only allow-listed callers. Every
rejected call leaves the state unchanged. -/
theorem authorization_spec (sender pid thr gb payment b now cb pid2 : Nat)
    (newActionType actType : String) (log : List Nat) (s : ManagerState)
    (hs : HandlerState) (ad : ABIData) (sig : EcdsaSig)
    (amount tin tout ain mout : Nat) :
    (sender ≠ (s.positions pid).user →
      callOk (updatePosition sender pid thr newActionType gb s) = false ∧
      runTx (updatePosition sender pid thr newActionType gb) s = s) ∧
    (sender ≠ (s.positions pid).user →
      callOk (updateGasBudget sender payment pid b s) = false ∧
      runTx (updateGasBudget sender payment pid b) s = s) ∧
    (sender ≠ (s.positions pid).user → sender ≠ s.owner →
      callOk (deactivatePosition sender pid s) = false ∧
      runTx (deactivatePosition sender pid) s = s) ∧
    (sender ≠ REACTIVE_SYSTEM →
      callOk (react now sender log s) = false ∧
      runTx (react now sender log) s = s) ∧
    (hs.authorizedCallers sender = false →
      callOk (executeHedgingTrade sender pid2 tin tout ain mout hs) = false ∧
      runCall (executeHedgingTrade sender pid2 tin tout ain mout) hs = hs ∧
      callOk (executeRebalancing sender pid2 actType amount hs) = false ∧
      runCall (executeRebalancing sender pid2 actType amount) hs = hs ∧
      callOk (processCallback sender cb pid2 ad sig hs) = false ∧
      runCall (processCallback sender cb pid2 ad sig) hs = hs) := by
  refine ⟨?_, ?_, ?_, ?_, ?_⟩
  · intro hne
    have hko : callOk (updatePosition sender pid thr newActionType gb s) = false := by
      by_cases hp : s.paused = true
      · simp [updatePosition, hp, callOk]
      · by_cases hact : (s.positions pid).isActive = false
        · simp [updatePosition, hp, hact, callOk]
        · have hne2 : (s.positions pid).user ≠ sender := fun he => hne he.symm
          simp [updatePosition, hp, hact, hne2, callOk]
    exact ⟨hko, runTx_eq_of_not_ok _ _ hko⟩
  · intro hne
    have hko : callOk (updateGasBudget sender payment pid b s) = false := by
      by_cases hact : (s.positions pid).isActive = false
      · simp [updateGasBudget, hact, callOk]
      · have hne2 : (s.positions pid).user ≠ sender := fun he => hne he.symm
        simp [updateGasBudget, hact, hne2, callOk]
    exact ⟨hko, runTx_eq_of_not_ok _ _ hko⟩
  · intro hne hnadm
    have hko : callOk (deactivatePosition sender pid s) = false := by
      by_cases hact : (s.positions pid).isActive = false
      · simp [deactivatePosition, hact, callOk]
      · have hna : ¬((s.positions pid).user = sender ∨ sender = s.owner) := by
          rintro (he | he)
          · exact hne he.symm
          · exact hnadm he
        simp [deactivatePosition, hact, hna, callOk]
    exact ⟨hko, runTx_eq_of_not_ok _ _ hko⟩
  · intro hne
    have hko : callOk (react now sender log s) = false := by
      by_cases hp : s.paused = true
      · simp [react, hp, callOk]
      · simp [react, hp, hne, callOk]
    exact ⟨hko, runTx_eq_of_not_ok _ _ hko⟩
  · intro hau
    have h1 : callOk (executeHedgingTrade sender pid2 tin tout ain mout hs) = false := by
      simp [executeHedgingTrade, hau, callOk]
    have h2 : callOk (executeRebalancing sender pid2 actType amount hs) = false := by
      simp [executeRebalancing, hau, callOk]
    have h3 : callOk (processCallback sender cb pid2 ad sig hs) = false := by
      simp [processCallback, hau, callOk]
    exact ⟨h1, runCall_eq_of_not_ok _ _ h1, h2, runCall_eq_of_not_ok _ _ h2,
      h3, runCall_eq_of_not_ok _ _ h3⟩

/-- C8 witness: the stranger address 8 is rejected by every guarded
entrypoint of exMgrA and exDhA. -/
theorem authorization_spec_witness :
    ((8 : Nat) ≠ (exMgrA.positions 5).user ∧ (8 : Nat) ≠ exMgrA.owner ∧
      (8 : Nat) ≠ REACTIVE_SYSTEM ∧ exDhA.authorizedCallers 8 = false) ∧
    (callOk (updatePosition 8 5 3 "rebalance" 4 exMgrA) = false ∧
      runTx (updatePosition 8 5 3 "rebalance" 4) exMgrA = exMgrA) ∧
    (callOk (deactivatePosition 8 5 exMgrA) = false ∧
      runTx (deactivatePosition 8 5) exMgrA = exMgrA) ∧
    (callOk (react 20 8 exLogA exMgrA) = false ∧
      runTx (react 20 8 exLogA) exMgrA = exMgrA) ∧
    (callOk (processCallback 8 11 5 exAdReb exSigA exDhA) = false ∧
      runCall (processCallback 8 11 5 exAdReb exSigA) exDhA = exDhA) :=
  ⟨⟨by decide, by decide, by decide, by decide⟩,
    (authorization_spec 8 5 3 4 0 0 20 11 5 "rebalance" "rebalance" exLogA exMgrA
        exDhA exAdReb exSigA 6 3 4 6 5).1 (by decide),
    (authorization_spec 8 5 3 4 0 0 20 11 5 "rebalance" "rebalance" exLogA exMgrA
        exDhA exAdReb exSigA 6 3 4 6 5).2.2.1 (by decide) (by decide),
    (authorization_spec 8 5 3 4 0 0 20 11 5 "rebalance" "rebalance" exLogA exMgrA
        exDhA exAdReb exSigA 6 3 4 6 5).2.2.2.1 (by decide),
    ⟨((authorization_spec 8 5 3 4 0 0 20 11 5 "rebalance" "rebalance" exLogA exMgrA
        exDhA exAdReb exSigA 6 3 4 6 5).2.2.2.2 (by decide)).2.2.2.2.1,
      ((authorization_spec 8 5 3 4 0 0 20 11 5 "rebalance" "rebalance" exLogA exMgrA
        exDhA exAdReb exSigA 6 3 4 6 5).2.2.2.2 (by decide)).2.2.2.2.2⟩⟩

/-- C5: a callback whose actionData decodes to action type hedge never
succeeds: processCallback fixes tokenOut to address(0) when it invokes
executeHedgingTrade, and executeHedgingTrade rejects a zero token address on
every input, so the whole call reverts with no state change. -/
theorem hedge_never_succeeds (sender cb pid amount token : Nat) (ad : ABIData)
    (sig : EcdsaSig) (hs : HandlerState)
    (hdec : decodeStringUintAddress ad = Except.ok ("hedge", amount, token)) :
    callOk (processCallback sender cb pid ad sig hs) = false ∧
    runCall (processCallback sender cb pid ad sig) hs = hs ∧
    (∀ (sender2 pid3 tin ain mout : Nat) (hs2 : HandlerState),
      callOk (executeHedgingTrade sender2 pid3 tin 0 ain mout hs2) = false) := by
  have hzero : ∀ (sender2 pid3 tin ain mout : Nat) (hs2 : HandlerState),
      callOk (executeHedgingTrade sender2 pid3 tin 0 ain mout hs2) = false := by
    intro sender2 pid3 tin ain mout hs2
    by_cases hau : hs2.authorizedCallers sender2 = false
    · simp [executeHedgingTrade, hau, callOk]
    · by_cases hp : hs2.paused = true
      · simp [executeHedgingTrade, hau, hp, callOk]
      · simp [executeHedgingTrade, hau, hp, callOk]
  have hko : callOk (processCallback sender cb pid ad sig hs) = false := by
    by_cases hau : hs.authorizedCallers sender = false
    · simp [processCallback, hau, callOk]
    · by_cases hcb : cb ∈ hs.processedCallbacks
      · simp [processCallback, hau, hcb, callOk]
      · by_cases hv : validateCallback hs pid sig = false
        · simp [processCallback, hau, hcb, hv, callOk]
        · by_cases hov : UINT256_MOD ≤ amount * 95
          · simp [processCallback, hau, hcb, hv, hdec, hov, callOk]
          · have hz := hzero sender pid token amount (amount * 95 / 100)
              ({ hs with processedCallbacks := cb :: hs.processedCallbacks })
            cases hex : executeHedgingTrade sender pid token 0 amount (amount * 95 / 100)
                ({ hs with processedCallbacks := cb :: hs.processedCallbacks }) with
            | error e => simp [processCallback, hau, hcb, hv, hdec, hov, hex, callOk]
            | ok p =>
              rw [hex] at hz
              simp [callOk] at hz
  exact ⟨hko, runCall_eq_of_not_ok _ _ hko, hzero⟩

/-- C5 witness: the concrete hedge payload exAdHedge is rejected on exDhA
even though caller, signature and callbackId are all valid. -/
theorem hedge_never_succeeds_witness :
    decodeStringUintAddress exAdHedge = Except.ok ("hedge", 6, 3) ∧
    callOk (processCallback 7 9 5 exAdHedge exSigA exDhA) = false ∧
    runCall (processCallback 7 9 5 exAdHedge exSigA) exDhA = exDhA :=
  ⟨by decide,
    (hedge_never_succeeds 7 9 5 6 3 exAdHedge exSigA exDhA (by decide)).1,
    (hedge_never_succeeds 7 9 5 6 3 exAdHedge exSigA exDhA (by decide)).2.1⟩

/-- A successful executeHedgingTrade returns the state it was given (the
stubbed swap moves tokens from the contract to itself). -/
theorem executeHedging_ok_state (sender pid tin tout ain mout : Nat)
    (s : HandlerState) (p : HandlerState × Nat)
    (h : executeHedgingTrade sender pid tin tout ain mout s = Except.ok p) :
    p.1 = s := by
  unfold executeHedgingTrade at h
  repeat any_goals split at h
  all_goals (try cases h)
  all_goals rfl

/-- A successful executeRebalancing returns the state it was given. -/
theorem executeRebalancing_ok_state (sender pid amount : Nat) (actType : String)
    (s : HandlerState) (p : HandlerState × Bool)
    (h : executeRebalancing sender pid actType amount s = Except.ok p) :
    p.1 = s := by
  unfold executeRebalancing at h
  repeat any_goals split at h
  all_goals (try cases h)
  all_goals rfl

/-- A successful processCallback leaves the dedup ledger as the old ledger
with the callbackId prepended. -/
theorem processCallback_ok_marks (sender cb pid : Nat) (ad : ABIData) (sig : EcdsaSig)
    (hs : HandlerState) (p : HandlerState × Bool)
    (h : processCallback sender cb pid ad sig hs = Except.ok p) :
    p.1.processedCallbacks = cb :: hs.processedCallbacks := by
  by_cases hau : hs.authorizedCallers sender = false
  · simp [processCallback, hau] at h
  · by_cases hcb : cb ∈ hs.processedCallbacks
    · simp [processCallback, hau, hcb] at h
    · by_cases hv : validateCallback hs pid sig = false
      · simp [processCallback, hau, hcb, hv] at h
      · cases hd : decodeStringUintAddress ad with
        | error e => simp [processCallback, hau, hcb, hv, hd] at h
        | ok t =>
          obtain ⟨actType, amount, token⟩ := t
          by_cases hh : actType = "hedge"
          · by_cases hov : UINT256_MOD ≤ amount * 95
            · simp [processCallback, hau, hcb, hv, hd, hh, hov] at h
            · cases hex : executeHedgingTrade sender pid token 0 amount (amount * 95 / 100)
                  ({ hs with processedCallbacks := cb :: hs.processedCallbacks }) with
              | error e => simp [processCallback, hau, hcb, hv, hd, hh, hov, hex] at h
              | ok q =>
                have hq := executeHedging_ok_state sender pid token 0 amount
                  (amount * 95 / 100) _ q hex
                simp [processCallback, hau, hcb, hv, hd, hh, hov, hex] at h
                rw [← h]
                rw [hq]
          · cases hex : executeRebalancing sender pid actType amount
                ({ hs with processedCallbacks := cb :: hs.processedCallbacks }) with
            | error e => simp [processCallback, hau, hcb, hv, hd, hh, hex] at h
            | ok q =>
              have hq := executeRebalancing_ok_state sender pid amount actType _ q hex
              simp [processCallback, hau, hcb, hv, hd, hh, hex] at h
              rw [← h]
              rw [hq]

/-- C7 counterexample: a hedge callback whose inner action fails. The revert
rolls back the mark: callbackId 9 is not in the ledger afterwards, and the
retry is rejected with the same inner error, not with CallbackAlreadyProcessed. -/
theorem callback_consumed_counterexample :
    errIs (processCallback 7 9 5 exAdHedge exSigA exDhA) DErr.invalidTokenAddresses = true ∧
    (9 : Nat) ∉ (runCall (processCallback 7 9 5 exAdHedge exSigA) exDhA).processedCallbacks ∧
    errIs (processCallback 7 9 5 exAdHedge exSigA
        (runCall (processCallback 7 9 5 exAdHedge exSigA) exDhA))
      DErr.callbackAlreadyProcessed = false ∧
    errIs (processCallback 7 9 5 exAdHedge exSigA
        (runCall (processCallback 7 9 5 exAdHedge exSigA) exDhA))
      DErr.invalidTokenAddresses = true :=
  ⟨by decide, by decide, by decide, by decide⟩

/-- C7 (amended): although the marking statement textually precedes the inner
action, a revert of the inner action rolls back the whole call including the
mark: a callbackId is in the ledger after the call exactly when it was
already there or the call succeeded, and after a failed call the state (and
hence any retry) is as if the call had never happened. -/
theorem callback_marked_iff_success (sender cb pid : Nat) (ad : ABIData)
    (sig : EcdsaSig) (hs : HandlerState) :
    (cb ∈ (runCall (processCallback sender cb pid ad sig) hs).processedCallbacks
      ↔ (cb ∈ hs.processedCallbacks ∨
          callOk (processCallback sender cb pid ad sig hs) = true)) ∧
    (callOk (processCallback sender cb pid ad sig hs) = false →
      runCall (processCallback sender cb pid ad sig) hs = hs) := by
  constructor
  · cases hex : processCallback sender cb pid ad sig hs with
    | error e =>
      have hrc : runCall (processCallback sender cb pid ad sig) hs = hs := by
        simp [runCall, hex]
      rw [hrc]
      simp [callOk]
    | ok p =>
      have hrc : runCall (processCallback sender cb pid ad sig) hs = p.1 := by
        simp [runCall, hex]
      have hm := processCallback_ok_marks sender cb pid ad sig hs p hex
      rw [hrc, hm]
      simp [callOk]
  · intro hko
    exact runCall_eq_of_not_ok _ _ hko

/-- C7 witness: on the failing hedge callback of the counterexample, the
ledger stays without callbackId 9; on the succeeding rebalance callback,
callbackId 11 ends up marked. -/
theorem callback_marked_iff_success_witness :
    (((9 : Nat) ∈ (runCall (processCallback 7 9 5 exAdHedge exSigA) exDhA).processedCallbacks
        ↔ ((9 : Nat) ∈ exDhA.processedCallbacks ∨
            callOk (processCallback 7 9 5 exAdHedge exSigA exDhA) = true)) ∧
      (callOk (processCallback 7 9 5 exAdHedge exSigA exDhA) = false →
        runCall (processCallback 7 9 5 exAdHedge exSigA) exDhA = exDhA)) ∧
    callOk (processCallback 7 9 5 exAdHedge exSigA exDhA) = false ∧
    runCall (processCallback 7 9 5 exAdHedge exSigA) exDhA = exDhA ∧
    ((11 : Nat) ∈ (runCall (processCallback 7 11 5 exAdReb exSigA) exDhA).processedCallbacks
      ↔ ((11 : Nat) ∈ exDhA.processedCallbacks ∨
          callOk (processCallback 7 11 5 exAdReb exSigA exDhA) = true)) :=
  ⟨callback_marked_iff_success 7 9 5 exAdHedge exSigA exDhA,
    by decide,
    (callback_marked_iff_success 7 9 5 exAdHedge exSigA exDhA).2 (by decide),
    (callback_marked_iff_success 7 11 5 exAdReb exSigA exDhA).1⟩

/-- executeHedgingTrade can never revert with InvalidCallbackSignature. -/
theorem executeHedging_not_sigerr (sender pid tin tout ain mout : Nat)
    (s : HandlerState) :
    executeHedgingTrade sender pid tin tout ain mout s
      ≠ Except.error DErr.invalidCallbackSignature := by
  intro h
  unfold executeHedgingTrade at h
  repeat any_goals split at h
  all_goals simp at h

/-- executeRebalancing can never revert with InvalidCallbackSignature. -/
theorem executeRebalancing_not_sigerr (sender pid amount : Nat) (actType : String)
    (s : HandlerState) :
    executeRebalancing sender pid actType amount s
      ≠ Except.error DErr.invalidCallbackSignature := by
  intro h
  unfold executeRebalancing at h
  repeat any_goals split at h
  all_goals simp at h

/-- A failing decode of the action triple always reports DecodeFailed. -/
theorem decodeSUA_err (ad : ABIData) (e : DErr)
    (h : decodeStringUintAddress ad = Except.error e) : e = DErr.decodeFailed := by
  cases ad with
  | triple a m t =>
    unfold decodeStringUintAddress at h
    dsimp only at h
    by_cases h1 : m < UINT256_MOD ∧ t < 2 ^ 160
    · rw [if_pos h1] at h
      cases h
    · rw [if_neg h1] at h
      cases h
      rfl
  | malformed r =>
    unfold decodeStringUintAddress at h
    cases h
    rfl

/-- For an authorized caller and a fresh callbackId, processCallback reports
InvalidCallbackSignature exactly when validateCallback is false — an outcome
that depends only on positionId, chain id, signature and allow-list, never
on callbackId or actionData. -/
theorem processCallback_sigerr_iff (sender cb pid : Nat) (ad : ABIData)
    (sig : EcdsaSig) (hs : HandlerState)
    (hau : hs.authorizedCallers sender = true)
    (hcb : cb ∉ hs.processedCallbacks) :
    (processCallback sender cb pid ad sig hs
        = Except.error DErr.invalidCallbackSignature)
      ↔ validateCallback hs pid sig = false := by
  constructor
  · intro h
    by_cases hv : validateCallback hs pid sig = false
    · exact hv
    · exfalso
      cases hd : decodeStringUintAddress ad with
      | error e =>
        have he := decodeSUA_err ad e hd
        simp [processCallback, hau, hcb, hv, hd] at h
        rw [he] at h
        simp at h
      | ok t =>
        obtain ⟨actType, amount, token⟩ := t
        by_cases hh : actType = "hedge"
        · by_cases hov : UINT256_MOD ≤ amount * 95
          · simp [processCallback, hau, hcb, hv, hd, hh, hov] at h
          · cases hex : executeHedgingTrade sender pid token 0 amount (amount * 95 / 100)
                ({ hs with processedCallbacks := cb :: hs.processedCallbacks }) with
            | error e =>
              have hns := executeHedging_not_sigerr sender pid token 0 amount
                (amount * 95 / 100)
                ({ hs with processedCallbacks := cb :: hs.processedCallbacks })
              rw [hex] at hns
              simp [processCallback, hau, hcb, hv, hd, hh, hov, hex] at h
              exact hns (by rw [h])
            | ok q => simp [processCallback, hau, hcb, hv, hd, hh, hov, hex] at h
        · cases hex : executeRebalancing sender pid actType amount
              ({ hs with processedCallbacks := cb :: hs.processedCallbacks }) with
          | error e =>
            have hns := executeRebalancing_not_sigerr sender pid amount actType
              ({ hs with processedCallbacks := cb :: hs.processedCallbacks })
            rw [hex] at hns
            simp [processCallback, hau, hcb, hv, hd, hh, hex] at h
            exact hns (by rw [h])
          | ok q => simp [processCallback, hau, hcb, hv, hd, hh, hex] at h
  · intro hv
    simp [processCallback, hau, hcb, hv]

/-- An authorized, fresh, validly signed callback whose payload decodes to a
supported rebalancing action with positive amount succeeds, marking the
callbackId and reporting success. -/
theorem processCallback_rebalance_ok (sender cb pid : Nat) (ad : ABIData)
    (sig : EcdsaSig) (hs : HandlerState) (a : String) (m t : Nat)
    (hau : hs.authorizedCallers sender = true)
    (hcb : cb ∉ hs.processedCallbacks)
    (hv : validateCallback hs pid sig = true)
    (hp : hs.paused = false)
    (hd : decodeStringUintAddress ad = Except.ok (a, m, t))
    (ha : a = "partial_unwind" ∨ a = "rebalance")
    (hm : 0 < m) :
    processCallback sender cb pid ad sig hs
      = Except.ok ({ hs with processedCallbacks := cb :: hs.processedCallbacks }, true) := by
  have hm2 : ¬ m = 0 := by omega
  have hpu : ("partial_unwind" : String) ≠ "hedge" := by decide
  have hrb : ("rebalance" : String) ≠ "hedge" := by decide
  have hplen : ¬ ("partial_unwind" : String).length = 0 := by decide
  have hrlen : ¬ ("rebalance" : String).length = 0 := by decide
  rcases ha with ha | ha
  · subst ha
    simp [processCallback, executeRebalancing, hau, hcb, hv, hp, hd, hm2, hpu, hplen]
  · subst ha
    simp [processCallback, executeRebalancing, hau, hcb, hv, hp, hd, hm2, hrb, hrlen]

/-- C6 counterexample: with the same position 5 and the same valid signature
exSigA, fresh distinct callbackIds and different actionData, the first call
(rebalance payload) succeeds but the second call (hedge payload) reverts —
so two such calls do not always both succeed. -/
theorem signature_replay_counterexample :
    callOk (processCallback 7 11 5 exAdReb exSigA exDhA) = true ∧
    (12 : Nat) ∉ exDhA.processedCallbacks ∧ (12 : Nat) ≠ 11 ∧ exAdHedge ≠ exAdReb ∧
    callOk (processCallback 7 12 5 exAdHedge exSigA
        (runCall (processCallback 7 11 5 exAdReb exSigA) exDhA)) = false :=
  ⟨by decide, by decide, by decide, by decide, by decide⟩

/-- C6 (amended): the callback signature check binds only (positionId,
destination chain id): for two calls with the same positionId and signature
but different callbackId and actionData, by an authorized caller with fresh
callbackIds, the signature-validation outcome is identical — each call
reports InvalidCallbackSignature exactly when validateCallback is false —
and when the signature is valid and each actionData decodes to a supported
rebalancing action with positive amount (and the handler is unpaused), both
calls succeed in sequence. -/
theorem signature_binds_position_only (hs : HandlerState) (sender cb1 cb2 pid : Nat)
    (ad1 ad2 : ABIData) (sig : EcdsaSig)
    (hau : hs.authorizedCallers sender = true)
    (hf1 : cb1 ∉ hs.processedCallbacks) (hf2 : cb2 ∉ hs.processedCallbacks)
    (hne : cb2 ≠ cb1) :
    ((processCallback sender cb1 pid ad1 sig hs
        = Except.error DErr.invalidCallbackSignature)
      ↔ validateCallback hs pid sig = false) ∧
    ((processCallback sender cb2 pid ad2 sig hs
        = Except.error DErr.invalidCallbackSignature)
      ↔ validateCallback hs pid sig = false) ∧
    (∀ (a1 a2 : String) (m1 t1 m2 t2 : Nat),
      validateCallback hs pid sig = true → hs.paused = false →
      decodeStringUintAddress ad1 = Except.ok (a1, m1, t1) →
      decodeStringUintAddress ad2 = Except.ok (a2, m2, t2) →
      (a1 = "partial_unwind" ∨ a1 = "rebalance") → 0 < m1 →
      (a2 = "partial_unwind" ∨ a2 = "rebalance") → 0 < m2 →
      callOk (processCallback sender cb1 pid ad1 sig hs) = true ∧
      callOk (processCallback sender cb2 pid ad2 sig
        (runCall (processCallback sender cb1 pid ad1 sig) hs)) = true) := by
  refine ⟨processCallback_sigerr_iff sender cb1 pid ad1 sig hs hau hf1,
    processCallback_sigerr_iff sender cb2 pid ad2 sig hs hau hf2, ?_⟩
  intro a1 a2 m1 t1 m2 t2 hv hp hd1 hd2 ha1 hm1 ha2 hm2
  have h1 := processCallback_rebalance_ok sender cb1 pid ad1 sig hs a1 m1 t1
    hau hf1 hv hp hd1 ha1 hm1
  have hrc : runCall (processCallback sender cb1 pid ad1 sig) hs
      = { hs with processedCallbacks := cb1 :: hs.processedCallbacks } := by
    simp [runCall, h1]
  have hau2 : ({ hs with processedCallbacks := cb1 :: hs.processedCallbacks }
      : HandlerState).authorizedCallers sender = true := hau
  have hcb2 : cb2 ∉ ({ hs with processedCallbacks := cb1 :: hs.processedCallbacks }
      : HandlerState).processedCallbacks := by
    simp [List.mem_cons, hne, hf2]
  have hv2 : validateCallback
      ({ hs with processedCallbacks := cb1 :: hs.processedCallbacks }) pid sig = true := hv
  have hp2 : ({ hs with processedCallbacks := cb1 :: hs.processedCallbacks }
      : HandlerState).paused = false := hp
  have h2 := processCallback_rebalance_ok sender cb2 pid ad2 sig _ a2 m2 t2
    hau2 hcb2 hv2 hp2 hd2 ha2 hm2
  rw [hrc]
  exact ⟨by simp [callOk, h1], by simp [callOk, h2]⟩

/-- C6 witness: on exDhA, the two iff conjuncts at a valid signature, and the
sequential success of two differently-payloaded calls 11 and 12 under the
same signature. -/
theorem signature_binds_position_only_witness :
    (exDhA.authorizedCallers 7 = true ∧ (11 : Nat) ∉ exDhA.processedCallbacks ∧
      (12 : Nat) ∉ exDhA.processedCallbacks ∧ (12 : Nat) ≠ 11 ∧
      validateCallback exDhA 5 exSigA = true ∧ exDhA.paused = false ∧
      decodeStringUintAddress exAdReb = Except.ok ("rebalance", 6, 3) ∧
      decodeStringUintAddress exAdReb2 = Except.ok ("partial_unwind", 8, 3)) ∧
    callOk (processCallback 7 11 5 exAdReb exSigA exDhA) = true ∧
    callOk (processCallback 7 12 5 exAdReb2 exSigA
      (runCall (processCallback 7 11 5 exAdReb exSigA) exDhA)) = true :=
  ⟨⟨by decide, by decide, by decide, by decide, by decide, by decide, by decide, by decide⟩,
    ((signature_binds_position_only exDhA 7 11 12 5 exAdReb exAdReb2 exSigA
        (by decide) (by decide) (by decide) (by decide)).2.2 "rebalance" "partial_unwind"
      6 3 8 3 (by decide) (by decide) (by decide) (by decide)
      (Or.inr (by decide)) (by decide) (Or.inl (by decide)) (by decide)).1,
    ((signature_binds_position_only exDhA 7 11 12 5 exAdReb exAdReb2 exSigA
        (by decide) (by decide) (by decide) (by decide)).2.2 "rebalance" "partial_unwind"
      6 3 8 3 (by decide) (by decide) (by decide) (by decide)
      (Or.inr (by decide)) (by decide) (Or.inl (by decide)) (by decide)).2⟩

/-- For a word below the int256 sign boundary, the cast and the checked
absolute value are the identity. -/
theorem absInt256_ofNat (q : Nat) (hq : q < 2 ^ 255) :
    absInt256 (toInt256 q) = Except.ok (q : Int) := by
  unfold toInt256 absInt256
  rw [if_pos hq]
  rw [if_neg (by omega : ¬ ((q : Int) = -(2 ^ 255 : Int)))]
  rw [if_pos (by omega : (0 : Int) ≤ (q : Int))]

/-- For a word at or above the sign boundary (other than the boundary
itself), the cast wraps to a negative value and the checked absolute value
returns the complement. -/
theorem absInt256_wrap (q : Nat) (h1 : 2 ^ 255 ≤ q) (h2 : q < 2 ^ 256)
    (h3 : q ≠ 2 ^ 255) :
    absInt256 (toInt256 q) = Except.ok ((2 ^ 256 - q : Nat) : Int) := by
  unfold toInt256 absInt256
  rw [if_neg (by omega : ¬ q < 2 ^ 255)]
  rw [if_neg (by omega : ¬ ((q : Int) - 2 ^ 256 = -(2 ^ 255 : Int)))]
  rw [if_neg (by omega : ¬ ((0 : Int) ≤ (q : Int) - 2 ^ 256))]
  congr 1
  omega

/-- The negated cast of a small word, as the handlers build it on the
downward branch, has checked absolute value equal to the word. -/
theorem absInt256_neg_ofNat (q : Nat) (hq : q < 2 ^ 255) :
    absInt256 (-(toInt256 q)) = Except.ok (q : Int) := by
  unfold toInt256 absInt256
  rw [if_pos hq]
  rw [if_neg (by omega : ¬ (-(q : Int) = -(2 ^ 255 : Int)))]
  by_cases h0 : (0 : Int) ≤ -(q : Int)
  · rw [if_pos h0]
    congr 1
    omega
  · rw [if_neg h0]
    congr 1
    omega

/-- Final step of updatePrice once the checked absolute change has been
computed: compare against the cap, then revert or store. -/
theorem updatePrice_final (sender pid newPrice q : Nat) (s : OriginState)
    (heval : updatePrice sender pid newPrice s
      = if MAX_PRICE_CHANGE < q then Except.error OErr.priceChangeTooLarge
        else Except.ok { s with
          positions := setOPos s.positions pid ({ s.positions pid with currentPrice := newPrice }) }) :
    (MAX_PRICE_CHANGE < q →
      updatePrice sender pid newPrice s = Except.error OErr.priceChangeTooLarge ∧
      ((runTx (updatePrice sender pid newPrice) s).positions pid).currentPrice
        = (s.positions pid).currentPrice) ∧
    (q ≤ MAX_PRICE_CHANGE →
      callOk (updatePrice sender pid newPrice s) = true ∧
      ((runTx (updatePrice sender pid newPrice) s).positions pid).currentPrice = newPrice) := by
  constructor
  · intro hgt
    have herr : updatePrice sender pid newPrice s = Except.error OErr.priceChangeTooLarge := by
      rw [heval, if_pos hgt]
    exact ⟨herr, by simp [runTx, herr]⟩
  · intro hle
    have hok2 : updatePrice sender pid newPrice s = Except.ok { s with
        positions := setOPos s.positions pid ({ s.positions pid with currentPrice := newPrice }) } := by
      rw [heval, if_neg (by omega)]
    exact ⟨by simp [callOk, hok2], by simp [runTx, hok2, setOPos]⟩

/-- Evaluation of updatePrice on the upward branch, given the checked
absolute value of the cast quotient. -/
theorem updatePrice_eval_up (sender pid newPrice a : Nat) (s : OriginState)
    (hown : sender = s.owner) (hact : (s.positions pid).isActive = true)
    (hnp : 0 < newPrice)
    (hbr : (s.positions pid).currentPrice < newPrice)
    (hprod : (newPrice - (s.positions pid).currentPrice) * PRICE_PRECISION < UINT256_MOD)
    (hop : 0 < (s.positions pid).currentPrice)
    (habs : absInt256 (toInt256 ((newPrice - (s.positions pid).currentPrice)
        * PRICE_PRECISION / (s.positions pid).currentPrice)) = Except.ok (a : Int)) :
    updatePrice sender pid newPrice s
      = if MAX_PRICE_CHANGE < a then Except.error OErr.priceChangeTooLarge
        else Except.ok { s with
          positions := setOPos s.positions pid ({ s.positions pid with currentPrice := newPrice }) } := by
  have h1 : ¬ sender ≠ s.owner := by simp [hown]
  have h2 : ¬ (s.positions pid).isActive = false := by simp [hact]
  have h3 : ¬ newPrice = 0 := by omega
  have h4 : ¬ UINT256_MOD ≤ (newPrice - (s.positions pid).currentPrice) * PRICE_PRECISION := by
    omega
  have h5 : ¬ (s.positions pid).currentPrice = 0 := by omega
  simp only [updatePrice, h1, h2, h3, hbr, h4, h5, habs, if_true, if_false, ite_true, ite_false,
    Int.toNat_natCast]
  rw [if_neg (show ¬ (true = false) by simp)]

/-- Evaluation of updatePrice on the downward branch, given the checked
absolute value of the negated cast quotient. -/
theorem updatePrice_eval_down (sender pid newPrice a : Nat) (s : OriginState)
    (hown : sender = s.owner) (hact : (s.positions pid).isActive = true)
    (hnp : 0 < newPrice)
    (hbr : ¬ (s.positions pid).currentPrice < newPrice)
    (hprod : ((s.positions pid).currentPrice - newPrice) * PRICE_PRECISION < UINT256_MOD)
    (hneg : ¬ toInt256 (((s.positions pid).currentPrice - newPrice)
        * PRICE_PRECISION / (s.positions pid).currentPrice) = -(2 ^ 255 : Int))
    (habs : absInt256 (-(toInt256 (((s.positions pid).currentPrice - newPrice)
        * PRICE_PRECISION / (s.positions pid).currentPrice))) = Except.ok (a : Int)) :
    updatePrice sender pid newPrice s
      = if MAX_PRICE_CHANGE < a then Except.error OErr.priceChangeTooLarge
        else Except.ok { s with
          positions := setOPos s.positions pid ({ s.positions pid with currentPrice := newPrice }) } := by
  have h1 : ¬ sender ≠ s.owner := by simp [hown]
  have h2 : ¬ (s.positions pid).isActive = false := by simp [hact]
  have h3 : ¬ newPrice = 0 := by omega
  have h4 : ¬ UINT256_MOD ≤ ((s.positions pid).currentPrice - newPrice) * PRICE_PRECISION := by
    omega
  simp only [updatePrice, h1, h2, h3, hbr, h4, hneg, habs, if_true, if_false, ite_true, ite_false,
    Int.toNat_natCast]
  rw [if_neg (show ¬ (true = false) by simp)]

/-- C10 counterexample: an active position with stored price 4e59; the update
to 5.5e59 has true relative delta 37.5e16, below the 50e16 cap, yet the call
reverts with an arithmetic Panic because (newPrice - oldPrice) * 1e18
overflows uint256, and currentPrice is left unchanged. -/
theorem updatePrice_counterexample :
    exOrgBig.owner = 7 ∧ (exOrgBig.positions 5).isActive = true ∧
    (exOrgBig.positions 5).currentPrice = 4 * 10 ^ 59 ∧ 0 < 55 * 10 ^ 58 ∧
    (55 * 10 ^ 58 - 4 * 10 ^ 59) * PRICE_PRECISION / (4 * 10 ^ 59) ≤ MAX_PRICE_CHANGE ∧
    errIs (updatePrice 7 5 (55 * 10 ^ 58) exOrgBig) OErr.arithPanic = true ∧
    ((runTx (updatePrice 7 5 (55 * 10 ^ 58)) exOrgBig).positions 5).currentPrice
      = 4 * 10 ^ 59 :=
  ⟨by decide, by decide, by decide, by decide, by decide, by decide, by decide⟩

/-- C10 (amended): for an active position, a positive stored price and a
positive new price, whenever the intermediate product
|newPrice - oldPrice| * 1e18 fits in uint256 the registry admin update is
rejected (ValidationError, price unchanged) exactly when the relative delta
|newPrice - oldPrice| * 1e18 / oldPrice exceeds 50% of the scale, and stores
the new price otherwise; when that product overflows uint256, or the stored
price is zero, the call instead reverts with an arithmetic Panic, again
leaving the price unchanged. -/
theorem updatePrice_bounded_change (sender pid newPrice : Nat) (s : OriginState)
    (hown : sender = s.owner)
    (hact : (s.positions pid).isActive = true)
    (hnp : 0 < newPrice)
    (hop : 0 < (s.positions pid).currentPrice)
    (hprod : (if (s.positions pid).currentPrice < newPrice
        then newPrice - (s.positions pid).currentPrice
        else (s.positions pid).currentPrice - newPrice) * PRICE_PRECISION < UINT256_MOD) :
    (MAX_PRICE_CHANGE < (if (s.positions pid).currentPrice < newPrice
        then newPrice - (s.positions pid).currentPrice
        else (s.positions pid).currentPrice - newPrice) * PRICE_PRECISION
          / (s.positions pid).currentPrice →
      updatePrice sender pid newPrice s = Except.error OErr.priceChangeTooLarge ∧
      ((runTx (updatePrice sender pid newPrice) s).positions pid).currentPrice
        = (s.positions pid).currentPrice) ∧
    ((if (s.positions pid).currentPrice < newPrice
        then newPrice - (s.positions pid).currentPrice
        else (s.positions pid).currentPrice - newPrice) * PRICE_PRECISION
          / (s.positions pid).currentPrice ≤ MAX_PRICE_CHANGE →
      callOk (updatePrice sender pid newPrice s) = true ∧
      ((runTx (updatePrice sender pid newPrice) s).positions pid).currentPrice
        = newPrice) := by
  have hpow255 : (2 : Nat) ^ 255
      = 57896044618658097711785492504343953926634992332820282019728792003956564819968 := by
    decide
  have hUv : UINT256_MOD
      = 115792089237316195423570985008687907853269984665640564039457584007913129639936 := by
    decide
  have hMAXv : MAX_PRICE_CHANGE = 500000000000000000 := by decide
  by_cases hbr : (s.positions pid).currentPrice < newPrice
  · rw [if_pos hbr] at hprod
    rw [if_pos hbr]
    by_cases hqlt : (newPrice - (s.positions pid).currentPrice) * PRICE_PRECISION
        / (s.positions pid).currentPrice < 2 ^ 255
    · exact updatePrice_final sender pid newPrice _ s
        (updatePrice_eval_up sender pid newPrice _ s hown hact hnp hbr hprod hop
          (absInt256_ofNat _ hqlt))
    · set old := (s.positions pid).currentPrice with holddef
      set q := (newPrice - old) * PRICE_PRECISION / old with hqdef
      have hq255 : 2 ^ 255 ≤ q := by omega
      have hold1 : old = 1 := by
        by_contra hne1
        have h2le : 2 ≤ old := by omega
        have hmul : q * old ≤ (newPrice - old) * PRICE_PRECISION := Nat.div_mul_le_self _ _
        have hbig : 2 ^ 255 * 2 ≤ q * old := Nat.mul_le_mul hq255 h2le
        omega
      have hq_eq : q = (newPrice - old) * PRICE_PRECISION := by
        rw [hqdef, hold1, Nat.div_one]
      have hq_ne : q ≠ 2 ^ 255 := by
        intro he
        have hmod : (2 ^ 255) % PRICE_PRECISION = 0 := by
          rw [← he, hq_eq]
          exact Nat.mul_mod_left _ _
        exact absurd hmod (by decide)
      have hq256 : q < 2 ^ 256 := by
        rw [hq_eq]
        exact hprod
      have hfin := updatePrice_final sender pid newPrice (2 ^ 256 - q) s
        (updatePrice_eval_up sender pid newPrice (2 ^ 256 - q) s hown hact hnp hbr hprod hop
          (absInt256_wrap q hq255 hq256 hq_ne))
      have hKle : newPrice - old
          ≤ 115792089237316195423570985008687907853269984665640564039457 := by
        by_contra hgt
        have h5 : 115792089237316195423570985008687907853269984665640564039458
            ≤ newPrice - old := by omega
        have h6 : 115792089237316195423570985008687907853269984665640564039458 * PRICE_PRECISION
            ≤ (newPrice - old) * PRICE_PRECISION := Nat.mul_le_mul_right _ h5
        have h7 : UINT256_MOD
            < 115792089237316195423570985008687907853269984665640564039458 * PRICE_PRECISION := by
          decide
        omega
      have hqle : q ≤ 115792089237316195423570985008687907853269984665640564039457
          * PRICE_PRECISION := by
        rw [hq_eq]
        exact Nat.mul_le_mul_right _ hKle
      have hKPP : 115792089237316195423570985008687907853269984665640564039457 * PRICE_PRECISION
          = 115792089237316195423570985008687907853269984665640564039457000000000000000000 := by
        decide
      have hgap : MAX_PRICE_CHANGE < 2 ^ 256 - q := by omega
      constructor
      · intro hgt
        exact hfin.1 hgap
      · intro hle
        exfalso
        omega
  · rw [if_neg hbr] at hprod
    rw [if_neg hbr]
    have hdlt : (s.positions pid).currentPrice - newPrice < (s.positions pid).currentPrice := by
      omega
    have hq_lt : ((s.positions pid).currentPrice - newPrice) * PRICE_PRECISION
        / (s.positions pid).currentPrice < PRICE_PRECISION := by
      apply (Nat.div_lt_iff_lt_mul hop).mpr
      have hPP0 : 0 < PRICE_PRECISION := by decide
      calc ((s.positions pid).currentPrice - newPrice) * PRICE_PRECISION
          = PRICE_PRECISION * ((s.positions pid).currentPrice - newPrice) := Nat.mul_comm _ _
        _ < PRICE_PRECISION * (s.positions pid).currentPrice :=
            mul_lt_mul_of_pos_left hdlt hPP0
    have hq255 : ((s.positions pid).currentPrice - newPrice) * PRICE_PRECISION
        / (s.positions pid).currentPrice < 2 ^ 255 := by
      have hPPlt : PRICE_PRECISION < 2 ^ 255 := by decide
      omega
    have hneg : ¬ toInt256 (((s.positions pid).currentPrice - newPrice)
        * PRICE_PRECISION / (s.positions pid).currentPrice) = -(2 ^ 255 : Int) := by
      unfold toInt256
      rw [if_pos hq255]
      intro hx
      have h0 : (0 : Int) ≤ (((s.positions pid).currentPrice - newPrice)
          * PRICE_PRECISION / (s.positions pid).currentPrice : Nat) :=
        Int.natCast_nonneg _
      rw [hx] at h0
      norm_num at h0
    exact updatePrice_final sender pid newPrice _ s
      (updatePrice_eval_down sender pid newPrice _ s hown hact hnp hbr hprod hneg
        (absInt256_neg_ofNat _ hq255))

/-- C10 witness: on a position with stored price 4, the update to 6 has
relative delta exactly 50% of the scale — the inclusive boundary — and is
accepted, storing the new price. -/
theorem updatePrice_bounded_change_witness :
    ((7 : Nat) = exOrgSmall.owner ∧ (exOrgSmall.positions 5).isActive = true ∧
      (0 : Nat) < 6 ∧ 0 < (exOrgSmall.positions 5).currentPrice ∧
      (if (exOrgSmall.positions 5).currentPrice < 6
        then 6 - (exOrgSmall.positions 5).currentPrice
        else (exOrgSmall.positions 5).currentPrice - 6) * PRICE_PRECISION < UINT256_MOD ∧
      (if (exOrgSmall.positions 5).currentPrice < 6
        then 6 - (exOrgSmall.positions 5).currentPrice
        else (exOrgSmall.positions 5).currentPrice - 6) * PRICE_PRECISION
          / (exOrgSmall.positions 5).currentPrice = MAX_PRICE_CHANGE) ∧
    callOk (updatePrice 7 5 6 exOrgSmall) = true ∧
    ((runTx (updatePrice 7 5 6) exOrgSmall).positions 5).currentPrice = 6 :=
  ⟨⟨by decide, by decide, by decide, by decide, by decide, by decide⟩,
    (updatePrice_bounded_change 7 5 6 exOrgSmall (by decide) (by decide) (by decide)
        (by decide) (by decide)).2 (by decide)⟩
